import Mathlib

/-!
# Verification of the rule-based sports query parser

A shallow embedding of `src/ai/parser.py` (`SportsQueryParser`) together with
proofs about the claims of the specification.

Modelling conventions:

* Python strings are embedded as `Str := List Char`.  Lowercasing uses Lean's
  ASCII `Char.toLower`; the repository's reference tables only contain
  non-ASCII characters that are already lowercase, so this agrees with
  Python's `str.lower` on all table entries.
* Python's `re` word characters (`\w`) are modelled as ASCII alphanumerics,
  `_`, and all non-ASCII characters (every non-ASCII character appearing in
  the reference tables is a letter).
* The optional external capabilities (rapidfuzz / difflib fuzzy scoring and
  the spaCy named-entity recognizer) are modelled as an oracle record `Caps`;
  `none` for the NER component models an unavailable recognition capability.
  All universally quantified theorems hold for every oracle.
* Non-string input to `parse` is modelled as the `none` case of
  `Option String`.
* Python functions that cannot raise are embedded as total Lean functions.
-/

/-- Embedded Python string. -/
abbrev Str := List Char

/-- Shorthand turning a Lean string literal into an embedded string. -/
def ls (s : String) : Str := s.toList

/-- Python `\w` (see modelling conventions above). -/
def isWordChar (c : Char) : Bool :=
  c.isAlphanum || c = '_' || decide (128 ≤ c.toNat)

/-- Lowercase an embedded string (ASCII, see modelling conventions). -/
def toLowerStr (l : Str) : Str := l.map Char.toLower

/-- Python `str.strip()` (whitespace on both ends). -/
def trimStr (l : Str) : Str :=
  ((l.dropWhile Char.isWhitespace).reverse.dropWhile Char.isWhitespace).reverse

/-- Python `str.strip(chars)`: strip any of the given characters from both ends. -/
def stripChars (cs : List Char) (l : Str) : Str :=
  ((l.dropWhile (· ∈ cs)).reverse.dropWhile (· ∈ cs)).reverse

/-- Drop leading whitespace (`\s*`). -/
def skipWs (l : Str) : Str := l.dropWhile Char.isWhitespace

/-- Does `l` start with `p`? (models an anchored literal regex match). -/
def startsWithStr : Str → Str → Bool
  | [], _ => true
  | _ :: _, [] => false
  | p :: ps, c :: cs => p = c && startsWithStr ps cs

/-- Python `pat in text` (substring containment). -/
def containsSub (pat : Str) : Str → Bool
  | [] => startsWithStr pat []
  | c :: rest => startsWithStr pat (c :: rest) || containsSub pat rest

/-- `re.sub(r"\s+", " ", ...)`: collapse every whitespace run to one space. -/
def collapseWsGo : Bool → Str → Str
  | _, [] => []
  | inRun, c :: rest =>
    if c.isWhitespace then
      if inRun then collapseWsGo true rest else ' ' :: collapseWsGo true rest
    else c :: collapseWsGo false rest

/-- Collapse whitespace runs to single spaces. -/
def collapseWs (l : Str) : Str := collapseWsGo false l

/-- `str.split()` : whitespace-separated tokens, no empties. -/
def splitWsGo (cur : Str) : Str → List Str
  | [] => if cur = [] then [] else [cur.reverse]
  | c :: rest =>
    if c.isWhitespace then
      if cur = [] then splitWsGo [] rest else cur.reverse :: splitWsGo [] rest
    else splitWsGo (c :: cur) rest

/-- Python `str.split()`. -/
def splitWsTokens (l : Str) : List Str := splitWsGo [] l

/-- `" ".join(xs)`. -/
def joinSpace : List Str → Str
  | [] => []
  | [x] => x
  | x :: y :: rest => x ++ ' ' :: joinSpace (y :: rest)

/-- `list(dict.fromkeys(xs))`: deduplicate keeping first occurrences. -/
def dedupKeepFirstGo [DecidableEq α] (seen : List α) : List α → List α
  | [] => []
  | x :: xs => if x ∈ seen then dedupKeepFirstGo seen xs
               else x :: dedupKeepFirstGo (x :: seen) xs

/-- Deduplicate keeping the first occurrence of each element. -/
def dedupKeepFirst [DecidableEq α] (l : List α) : List α := dedupKeepFirstGo [] l

/-- Codepoint-wise `≤` on strings (Python string comparison). -/
def lexLeB : Str → Str → Bool
  | [], _ => true
  | _ :: _, [] => false
  | a :: xs, b :: ys =>
    if a.toNat < b.toNat then true
    else if b.toNat < a.toNat then false
    else lexLeB xs ys

/-- Insert into a codepoint-ascending list. -/
def insAsc (x : Str) : List Str → List Str
  | [] => [x]
  | y :: ys => if lexLeB y x then y :: insAsc x ys else x :: y :: ys

/-- Python `sorted` on strings (ascending codepoint order). -/
def sortAsc (l : List Str) : List Str := l.foldl (fun acc x => insAsc x acc) []

/-- Stable insertion keeping longer strings first; an inserted element goes
after all already-placed elements of the same length, which makes the fold
below agree with Python's stable `sorted(..., key=len, reverse=True)`. -/
def insLenDesc (x : Str) : List Str → List Str
  | [] => [x]
  | y :: ys => if x.length ≤ y.length then y :: insLenDesc x ys else x :: y :: ys

/-- Python `sorted(keys, key=len, reverse=True)` (stable). -/
def sortLenDesc (l : List Str) : List Str := l.foldl (fun acc x => insLenDesc x acc) []

/-- A field value of the query descriptor: `null`, a string, or a list. -/
inductive Val where
  | null : Val
  | str : Str → Val
  | list : List Str → Val
deriving DecidableEq, Repr

/-- The query descriptor returned by `SportsQueryParser.parse` (the Python
dict with its eight fixed keys). -/
structure Descriptor where
  team : Val
  league : Val
  player : Val
  season : Val
  stat_type : Val
  metric : Val
  metric_type : Val
  chart_type : Val
deriving DecidableEq, Repr

/-- `SportsQueryParser._as_scalar_or_list`. -/
def asScalarOrList : List Str → Val
  | [] => Val.null
  | [x] => Val.str x
  | xs => Val.list xs

/-- The keys of `FBREF_METRIC_MAP` (backend/mappings/fbref_mapping.py) in
table order.  Only the keys are relevant to the parser: it records matched
phrases, not their FBref codes. -/
def metricKeys : List Str := [
  ls "goal",
  ls "goals",
  ls "assist",
  ls "assists",
  ls "goal + assist",
  ls "goals + assists",
  ls "goal involvement",
  ls "goal contributions",
  ls "expected goals",
  ls "xg",
  ls "non-penalty expected goals",
  ls "non penalty expected goals",
  ls "non-penalty xg",
  ls "expected assists",
  ls "expected goal assists",
  ls "xag",
  ls "expected goals plus expected assists",
  ls "expected goal involvement",
  ls "expected goals + expected assists",
  ls "shots",
  ls "shots total",
  ls "shots on target",
  ls "shots off target",
  ls "shots inside box",
  ls "shots outside box",
  ls "shots per 90",
  ls "goals per 90",
  ls "assists per 90",
  ls "expected goals per 90",
  ls "xg per shot",
  ls "passes completed",
  ls "passes attempted",
  ls "pass completion %",
  ls "pass accuracy",
  ls "key passes",
  ls "progressive passes",
  ls "through balls",
  ls "crosses",
  ls "long passes",
  ls "short passes",
  ls "medium passes",
  ls "passes per 90",
  ls "touches",
  ls "progressive carries",
  ls "progressive carry",
  ls "carries",
  ls "dribbles",
  ls "dribbles completed",
  ls "dribbles attempted",
  ls "successful dribbles",
  ls "tackles",
  ls "tackles won",
  ls "interceptions",
  ls "blocks",
  ls "clearances",
  ls "fouls committed",
  ls "fouls suffered",
  ls "yellow cards",
  ls "red cards",
  ls "aerial duels won",
  ls "duels won",
  ls "duels lost",
  ls "saves",
  ls "save percentage",
  ls "save %",
  ls "goals conceded",
  ls "clean sheets",
  ls "post-shot xg",
  ls "post shot xg",
  ls "expected goals against",
  ls "possession",
  ls "possession %",
  ls "possession percentage",
  ls "touches in final third",
  ls "progressive dribbles",
  ls "carries into box",
  ls "passes allowed per defensive action",
  ls "ppda",
  ls "per 90",
  ls "per game"
]

/-- `FBREF_TEAMS` (backend/mappings/fbref_mapping.py), including the
duplicated "Burnley" entry of the source list. -/
def fbrefTeams : List Str := [
  ls "Arsenal",
  ls "Aston Villa",
  ls "Bournemouth",
  ls "Brentford",
  ls "Brighton",
  ls "Burnley",
  ls "Chelsea",
  ls "Crystal Palace",
  ls "Everton",
  ls "Fulham",
  ls "Leeds United",
  ls "Liverpool",
  ls "Manchester City",
  ls "Manchester Utd",
  ls "Newcastle Utd",
  ls "Nott'm Forest",
  ls "Tottenham",
  ls "West Ham",
  ls "Wolves",
  ls "Sheffield Utd",
  ls "Leicester City",
  ls "Southampton",
  ls "Watford",
  ls "Cardiff City",
  ls "Swansea City",
  ls "Hull City",
  ls "Stoke City",
  ls "West Brom",
  ls "QPR",
  ls "Blackburn Rovers",
  ls "Bolton Wanderers",
  ls "Wigan Athletic",
  ls "Sunderland",
  ls "Middlesbrough",
  ls "Derby County",
  ls "Reading",
  ls "Burnley",
  ls "Charlton Athletic",
  ls "Coventry City",
  ls "Ipswich Town",
  ls "Norwich City",
  ls "Alaves",
  ls "Athletic Club",
  ls "Atletico Madrid",
  ls "Barcelona",
  ls "Celta Vigo",
  ls "Getafe",
  ls "Girona",
  ls "Granada",
  ls "Las Palmas",
  ls "Mallorca",
  ls "Osasuna",
  ls "Rayo Vallecano",
  ls "Real Betis",
  ls "Real Madrid",
  ls "Real Sociedad",
  ls "Sevilla",
  ls "Valencia",
  ls "Villarreal",
  ls "Augsburg",
  ls "Bayer Leverkusen",
  ls "Bayern Munich",
  ls "Bochum",
  ls "Borussia Dortmund",
  ls "Borussia M'gladbach",
  ls "Darmstadt 98",
  ls "Eint Frankfurt",
  ls "FC Cologne",
  ls "Heidenheim",
  ls "Hoffenheim",
  ls "Mainz 05",
  ls "RB Leipzig",
  ls "Union Berlin",
  ls "VfB Stuttgart",
  ls "Werder Bremen",
  ls "Wolfsburg",
  ls "Hamburger SV",
  ls "Köln",
  ls "St. Pauli",
  ls "Schalke 04",
  ls "Karlsruher SC",
  ls "Düsseldorf",
  ls "AC Milan",
  ls "AS Roma",
  ls "Atalanta",
  ls "Bologna",
  ls "Cagliari",
  ls "Empoli",
  ls "Fiorentina",
  ls "Frosinone",
  ls "Genoa",
  ls "Inter Milan",
  ls "Juventus",
  ls "Lazio",
  ls "Lecce",
  ls "Monza",
  ls "Napoli",
  ls "Salernitana",
  ls "Sassuolo",
  ls "Torino",
  ls "Udinese",
  ls "Verona",
  ls "Pisa",
  ls "Parma",
  ls "Cremonese",
  ls "Spezia",
  ls "Modena",
  ls "Angers",
  ls "Auxerre",
  ls "Brest",
  ls "Clermont Foot",
  ls "Lens",
  ls "Lille",
  ls "Lorient",
  ls "Lyon",
  ls "Marseille",
  ls "Metz",
  ls "Monaco",
  ls "Montpellier",
  ls "Nantes",
  ls "Nice",
  ls "Paris S-G",
  ls "Reims",
  ls "Rennes",
  ls "Strasbourg",
  ls "Toulouse",
  ls "Troyes",
  ls "Paris FC",
  ls "Le Havre",
  ls "Guingamp",
  ls "Dijon",
  ls "Sochaux",
  ls "Ajaccio",
  ls "Bordeaux",
  ls "Nîmes",
  ls "Valenciennes"
]

/-- `LEAGUE_TEAM_GROUPS` (parser.py). -/
def leagueTeamGroups : List (Str × List Str) := [
  (ls "ENG-Premier League", [
    ls "Arsenal",
    ls "Aston Villa",
    ls "Bournemouth",
    ls "Brentford",
    ls "Brighton",
    ls "Burnley",
    ls "Chelsea",
    ls "Crystal Palace",
    ls "Everton",
    ls "Fulham",
    ls "Leeds United",
    ls "Liverpool",
    ls "Manchester City",
    ls "Manchester Utd",
    ls "Newcastle Utd",
    ls "Nott'm Forest",
    ls "Tottenham",
    ls "West Ham",
    ls "Wolves",
    ls "Sheffield Utd",
    ls "Leicester City",
    ls "Southampton",
    ls "Watford",
    ls "Cardiff City",
    ls "Swansea City",
    ls "Hull City",
    ls "Stoke City",
    ls "West Brom",
    ls "QPR",
    ls "Blackburn Rovers",
    ls "Bolton Wanderers",
    ls "Wigan Athletic",
    ls "Sunderland",
    ls "Middlesbrough",
    ls "Derby County",
    ls "Reading",
    ls "Charlton Athletic",
    ls "Coventry City",
    ls "Ipswich Town",
    ls "Norwich City"
  ]),
  (ls "ESP-La Liga", [
    ls "Alaves",
    ls "Athletic Club",
    ls "Atletico Madrid",
    ls "Barcelona",
    ls "Celta Vigo",
    ls "Getafe",
    ls "Girona",
    ls "Granada",
    ls "Las Palmas",
    ls "Mallorca",
    ls "Osasuna",
    ls "Rayo Vallecano",
    ls "Real Betis",
    ls "Real Madrid",
    ls "Real Sociedad",
    ls "Sevilla",
    ls "Valencia",
    ls "Villarreal"
  ]),
  (ls "GER-Bundesliga", [
    ls "Augsburg",
    ls "Bayer Leverkusen",
    ls "Bayern Munich",
    ls "Bochum",
    ls "Borussia Dortmund",
    ls "Borussia M'gladbach",
    ls "Darmstadt 98",
    ls "Eint Frankfurt",
    ls "FC Cologne",
    ls "Heidenheim",
    ls "Hoffenheim",
    ls "Mainz 05",
    ls "RB Leipzig",
    ls "Union Berlin",
    ls "VfB Stuttgart",
    ls "Werder Bremen",
    ls "Wolfsburg",
    ls "Hamburger SV",
    ls "Köln",
    ls "St. Pauli",
    ls "Schalke 04",
    ls "Karlsruher SC",
    ls "Düsseldorf"
  ]),
  (ls "ITA-Serie A", [
    ls "AC Milan",
    ls "AS Roma",
    ls "Atalanta",
    ls "Bologna",
    ls "Cagliari",
    ls "Empoli",
    ls "Fiorentina",
    ls "Frosinone",
    ls "Genoa",
    ls "Inter Milan",
    ls "Juventus",
    ls "Lazio",
    ls "Lecce",
    ls "Monza",
    ls "Napoli",
    ls "Salernitana",
    ls "Sassuolo",
    ls "Torino",
    ls "Udinese",
    ls "Verona",
    ls "Pisa",
    ls "Parma",
    ls "Cremonese",
    ls "Spezia",
    ls "Modena"
  ]),
  (ls "FRA-Ligue 1", [
    ls "Angers",
    ls "Auxerre",
    ls "Brest",
    ls "Clermont Foot",
    ls "Lens",
    ls "Lille",
    ls "Lorient",
    ls "Lyon",
    ls "Marseille",
    ls "Metz",
    ls "Monaco",
    ls "Montpellier",
    ls "Nantes",
    ls "Nice",
    ls "Paris S-G",
    ls "Reims",
    ls "Rennes",
    ls "Strasbourg",
    ls "Toulouse",
    ls "Troyes",
    ls "Paris FC",
    ls "Le Havre",
    ls "Guingamp",
    ls "Dijon",
    ls "Sochaux",
    ls "Ajaccio",
    ls "Bordeaux",
    ls "Nîmes",
    ls "Valenciennes"
  ])
]

/-- `TEAM_TO_LEAGUE` (parser.py): team → league pairs in comprehension order. -/
def teamToLeaguePairs : List (Str × Str) :=
  (leagueTeamGroups.map (fun g => g.2.map (fun t => (t, g.1)))).flatten

/-- `TEAM_ALIASES` (parser.py) in table order. -/
def teamAliases : List (Str × Str) := [
  (ls "manchester united", ls "Manchester Utd"),
  (ls "man united", ls "Manchester Utd"),
  (ls "man utd", ls "Manchester Utd"),
  (ls "manchester city", ls "Manchester City"),
  (ls "psg", ls "Paris S-G"),
  (ls "inter", ls "Inter Milan"),
  (ls "spurs", ls "Tottenham"),
  (ls "wolves", ls "Wolves"),
  (ls "atletico", ls "Atletico Madrid"),
  (ls "newcastle", ls "Newcastle Utd"),
  (ls "nottingham forest", ls "Nott'm Forest")
]

/-- `LEAGUE_PATTERNS` (parser.py) in table order. -/
def leaguePatternTable : List (Str × List Str) := [
  (ls "Big 5 European Leagues Combined",
    [ls "big 5", ls "big five", ls "top 5 leagues", ls "big 5 european leagues"]),
  (ls "ENG-Premier League", [ls "premier league", ls "epl", ls "english premier league"]),
  (ls "ESP-La Liga", [ls "la liga", ls "laliga", ls "spanish league"]),
  (ls "FRA-Ligue 1", [ls "ligue 1", ls "french league"]),
  (ls "GER-Bundesliga", [ls "bundesliga", ls "german league"]),
  (ls "ITA-Serie A", [ls "serie a", ls "italian league"]),
  (ls "INT-World Cup", [ls "world cup", ls "fifa world cup"]),
  (ls "INT-Women's World Cup", [ls "women's world cup", ls "fifa women's world cup"]),
  (ls "INT-European Championship",
    [ls "euro", ls "euros", ls "european championship", ls "uefa european championship"])
]

/-- `DEFAULT_LEAGUE` (parser.py). -/
def defaultLeague : Str := ls "Big 5 European Leagues Combined"

/-- `CHART_PATTERNS` (parser.py) in table order. -/
def chartPatternTable : List (Str × List Str) := [
  (ls "bar", [ls "bar chart", ls "bar graph", ls "compare", ls "comparison", ls "vs", ls "versus", ls "top"]),
  (ls "line", [ls "line chart", ls "line graph", ls "trend", ls "over time", ls "across seasons", ls "by season"]),
  (ls "scatter", [ls "scatter", ls "scatter plot"]),
  (ls "pie", [ls "pie chart", ls "pie graph", ls "share", ls "distribution"]),
  (ls "table", [ls "table", ls "tabular", ls "list"]),
  (ls "heatmap", [ls "heatmap", ls "correlation"]),
  (ls "radar", [ls "radar", ls "spider chart"])
]

/-- `STAT_TYPE_PATTERNS` (parser.py) in table order. -/
def statTypePatternTable : List (Str × List Str) := [
  (ls "keeper", [ls "keeper", ls "goalkeeper", ls "goalkeeping", ls "save", ls "clean sheet", ls "goals conceded"]),
  (ls "shooting", [ls "shooting", ls "shots", ls "shot", ls "xg", ls "finishing"]),
  (ls "passing", [ls "passing", ls "pass", ls "assists", ls "key pass", ls "through ball"]),
  (ls "defense", [ls "defense", ls "defensive", ls "tackles", ls "interceptions", ls "clearances", ls "blocks"]),
  (ls "possession", [ls "possession", ls "touches", ls "dribbles", ls "carries"])
]

/-- `METRIC_TO_STAT_TYPE_HINTS` (parser.py) in table order. -/
def metricHintTable : List (Str × Str) := [
  (ls "xg", ls "shooting"),
  (ls "expected goals", ls "shooting"),
  (ls "shots on target", ls "shooting"),
  (ls "shots", ls "shooting"),
  (ls "shot", ls "shooting"),
  (ls "save", ls "keeper"),
  (ls "clean sheet", ls "keeper"),
  (ls "passes", ls "passing"),
  (ls "pass", ls "passing"),
  (ls "assist", ls "passing"),
  (ls "tackles", ls "defense"),
  (ls "interceptions", ls "defense"),
  (ls "clearances", ls "defense"),
  (ls "possession", ls "possession"),
  (ls "touches", ls "possession"),
  (ls "dribble", ls "possession")
]

/-- `DEFAULT_METRICS` (parser.py). -/
def defaultMetricsTable : List (Str × List Str) := [
  (ls "standard", [ls "goals", ls "assists", ls "minutes"]),
  (ls "keeper", [ls "saves", ls "clean sheets", ls "goals conceded"]),
  (ls "shooting", [ls "shots", ls "shots on target", ls "goals"]),
  (ls "passing", [ls "passes completed", ls "pass accuracy", ls "passes attempted"]),
  (ls "defense", [ls "tackles", ls "interceptions", ls "clearances"]),
  (ls "possession", [ls "possession %", ls "touches", ls "dribbles completed"])
]

/-- `PLAYER_LEADING_STOPWORDS` (parser.py); a set, so order is irrelevant. -/
def leadingStopwords : List Str :=
  [ls "compare", ls "show", ls "display", ls "analyze", ls "analyse",
   ls "find", ls "get", ls "give", ls "prompt"]

/-- `PLAYER_TRAILING_STOPWORDS` (parser.py); a set, so order is irrelevant. -/
def trailingStopwords : List Str :=
  [ls "stat", ls "stats", ls "goal", ls "goals", ls "assist", ls "assists",
   ls "shot", ls "shots", ls "season", ls "seasons"]

/-- `self.team_names = sorted(set(list(team_to_league.keys()) + imported))`
(the imported `FBREF_TEAMS` is a list, so `imported_team_to_league` is empty
and `team_to_league` is exactly `TEAM_TO_LEAGUE`). -/
def teamNames : List Str :=
  sortAsc (dedupKeepFirst (teamToLeaguePairs.map Prod.fst ++ fbrefTeams))

/-- `self.team_to_league_lower` (keys lowered; every league is non-empty). -/
def teamToLeagueLower : List (Str × Str) :=
  teamToLeaguePairs.map (fun p => (toLowerStr p.1, p.2))

/-- Python dict `.get` over an association list with unique keys. -/
def alistGet (l : List (Str × α)) (k : Str) : Option α :=
  (l.find? (fun p => p.1 == k)).map Prod.snd

/-- Word-status of the first character (`false` at the edge of the text). -/
def headIsWord : Str → Bool
  | [] => false
  | c :: _ => isWordChar c

/-- `\b` holds between two word-statuses iff they differ. -/
def boundaryB (a b : Bool) : Bool := a != b

/-- One attempt of `re.search(rf"\b{pat}\b", text)` at the current position:
the literal must match and both word boundaries must hold. -/
def wbHere (pat : Str) (prevW : Bool) (l : Str) : Bool :=
  startsWithStr pat l
  && boundaryB prevW (headIsWord pat)
  && boundaryB (isWordChar (pat.getLastD ' ')) (headIsWord (l.drop pat.length))

/-- Left-to-right scan for a word-boundary-delimited literal occurrence. -/
def wbGo (pat : Str) : Bool → Str → Bool
  | _, [] => false
  | prevW, c :: rest => wbHere pat prevW (c :: rest) || wbGo pat (isWordChar c) rest

/-- `re.search(rf"\b{re.escape(pat)}\b", text) is not None`, `pat` non-empty. -/
def wbSearch (pat text : Str) : Bool :=
  !pat.isEmpty && wbGo pat false text

/-- `re.finditer` for a non-empty literal pattern: leftmost, non-overlapping
spans `(start, stop)`.  The fuel argument equals the remaining text length,
which bounds the number of scan steps. -/
def findIterGo (pat : Str) : Nat → Nat → Str → List (Nat × Nat)
  | 0, _, _ => []
  | _ + 1, _, [] => []
  | fuel + 1, i, c :: rest =>
    if startsWithStr pat (c :: rest) then
      (i, i + pat.length) :: findIterGo pat fuel (i + pat.length) (rest.drop (pat.length - 1))
    else findIterGo pat fuel (i + 1) rest

/-- All leftmost non-overlapping occurrences of the literal `pat` in `text`. -/
def findIter (pat text : Str) : List (Nat × Nat) := findIterGo pat text.length 0 text

/-- `\d`: a decimal digit, stated arithmetically (codepoints 48-57, which is
exactly `Char.isDigit`). -/
def isDigitB (c : Char) : Bool := decide (48 ≤ c.toNat) && decide (c.toNat ≤ 57)

/-- Numeric value of a digit character. -/
def digitVal (c : Char) : Nat := c.toNat - 48

/-- Trailing `\b` after a digit: the next character must not be a word char. -/
def boundaryOk (l : Str) : Bool := !(headIsWord l)

/-- Anchored attempt of the season-range regex: start `20\d{2}`, then `\s*`,
a separator (dash or slash), `\s*`, and an end `\d{2}` or `\d{4}` followed by
`\b`; returns the two captured numbers and the remaining text.  Mirrors the
regex engine: the 2-digit end alternative is tried first, the 4-digit one on
boundary failure. -/
def rangeAt : Str → Option (Nat × Nat × Str)
  | '2' :: '0' :: d1 :: d2 :: rest =>
    if isDigitB d1 && isDigitB d2 then
      let s := 2000 + 10 * digitVal d1 + digitVal d2
      match skipWs rest with
      | sep :: r2 =>
        if sep = '-' || sep = '/' then
          match skipWs r2 with
          | a :: b :: r4 =>
            if isDigitB a && isDigitB b then
              if boundaryOk r4 then some (s, 10 * digitVal a + digitVal b, r4)
              else
                match r4 with
                | c :: d :: r5 =>
                  if isDigitB c && isDigitB d && boundaryOk r5 then
                    some (s, 1000 * digitVal a + 100 * digitVal b
                               + 10 * digitVal c + digitVal d, r5)
                  else none
                | _ => none
            else none
          | _ => none
        else none
      | [] => none
    else none
  | _ => none

/-- `re.findall` for the season-range regex (with its leading `\b`):
left-to-right scan; after a match the scan resumes past it (the last consumed
character is a digit, hence a word char). -/
def rangeScanGo : Nat → Bool → Str → List (Nat × Nat)
  | 0, _, _ => []
  | _ + 1, _, [] => []
  | fuel + 1, prevW, c :: rest =>
    match if prevW then none else rangeAt (c :: rest) with
    | some (s, e, rest2) => (s, e) :: rangeScanGo fuel true rest2
    | none => rangeScanGo fuel (isWordChar c) rest

/-- All season-range matches in the text. -/
def rangeFindAll (text : Str) : List (Nat × Nat) := rangeScanGo text.length false text

/-- Anchored attempt of `20\d{2}` followed by `\b`. -/
def yearAt : Str → Option (Nat × Str)
  | '2' :: '0' :: d1 :: d2 :: rest =>
    if isDigitB d1 && isDigitB d2 && boundaryOk rest then
      some (2000 + 10 * digitVal d1 + digitVal d2, rest)
    else none
  | _ => none

/-- `re.findall(r"\b(20\d{2})\b", text)`. -/
def yearScanGo : Nat → Bool → Str → List Nat
  | 0, _, _ => []
  | _ + 1, _, [] => []
  | fuel + 1, prevW, c :: rest =>
    match if prevW then none else yearAt (c :: rest) with
    | some (y, rest2) => y :: yearScanGo fuel true rest2
    | none => yearScanGo fuel (isWordChar c) rest

/-- All bare-year matches in the text. -/
def yearFindAll (text : Str) : List Nat := yearScanGo text.length false text

/-- Numeric value of a digit run. -/
def natOfDigits (l : Str) : Nat := l.foldl (fun acc c => 10 * acc + digitVal c) 0

/-- Anchored attempt of `(last|past)\s+(\d+)\s+seasons?`, returning capture 2
(the pattern has no word boundaries, so no context is needed). -/
def lastNAt (l : Str) : Option Nat :=
  let afterKw :=
    if startsWithStr (ls "last") l then some (l.drop 4)
    else if startsWithStr (ls "past") l then some (l.drop 4)
    else none
  match afterKw with
  | none => none
  | some r1 =>
    match r1 with
    | c :: _ =>
      if c.isWhitespace then
        let r2 := skipWs r1
        match r2.takeWhile isDigitB with
        | [] => none
        | ds =>
          match r2.dropWhile isDigitB with
          | c2 :: r3 =>
            if c2.isWhitespace then
              if startsWithStr (ls "season") (skipWs (c2 :: r3)) then some (natOfDigits ds)
              else none
            else none
          | [] => none
      else none
    | [] => none

/-- `re.search(r"(last|past)\s+(\d+)\s+seasons?", text)`: leftmost match. -/
def lastNScan : Str → Option Nat
  | [] => none
  | c :: rest =>
    match lastNAt (c :: rest) with
    | some n => some n
    | none => lastNScan rest

/-- Digit character for a value below ten. -/
def digitChar (d : Nat) : Char := Char.ofNat (48 + d)

/-- `f"{y % 100:02d}"` (Python `%` yields a non-negative remainder, which is
`Int.emod`, written `%` here). -/
def twoDigitCode (y : Int) : Str :=
  let m := y % 100
  [digitChar (m / 10).toNat, digitChar (m % 10).toNat]

/-- `SportsQueryParser._compact_season`. -/
def compactSeason (startYear : Int) (endYear : Option Int) : Str :=
  match endYear with
  | none => twoDigitCode startYear
  | some e => twoDigitCode startYear ++ twoDigitCode e

/-- Century carry applied to a matched range's end year (parser.py 470-473);
the matched start year is a non-negative integer, so Python's floor division
is Nat division. -/
def carriedEnd (s e : Nat) : Int :=
  if e < 100 then ((s / 100 * 100 + e : Nat) : Int) else (e : Int)

/-- The compact code recorded for one matched season range. -/
def compactRange (s e : Nat) : Str := compactSeason (s : Int) (some (carriedEnd s e))

/-- `SportsQueryParser._extract_season`. -/
def extractSeason (prompt norm : Str) : Val :=
  let rcodes := dedupKeepFirst ((rangeFindAll prompt).map (fun p => compactRange p.1 p.2))
  if rcodes ≠ [] then
    if rcodes.length = 1 then Val.str (rcodes.headD []) else Val.list rcodes
  else
    let ycodes := dedupKeepFirst
      ((yearFindAll prompt).map (fun (y : Nat) => compactSeason (Int.ofNat y) none))
    if ycodes ≠ [] then
      if ycodes.length = 1 then Val.str (ycodes.headD []) else Val.list ycodes
    else if containsSub (ls "this season") norm then Val.str (ls "2324")
    else if containsSub (ls "last season") norm then Val.str (ls "2223")
    else
      match lastNScan norm with
      | some n =>
        let seasons := ((List.range (max 1 n)).reverse).map
          (fun (o : Nat) => compactSeason ((2023 : Int) - (o : Int)) none)
        if 1 < seasons.length then Val.list seasons else Val.str (seasons.headD [])
      | none => Val.null

/-- `text.lower().replace("&", " and ")` (second half). -/
def replaceAmp : Str → Str
  | [] => []
  | c :: rest =>
    if c = '&' then ' ' :: 'a' :: 'n' :: 'd' :: ' ' :: replaceAmp rest
    else c :: replaceAmp rest

/-- `SportsQueryParser._normalize`. -/
def normalizeText (text : Str) : Str := trimStr (collapseWs (replaceAmp (toLowerStr text)))

/-- `re.sub(r"^\s*prompt\s*:\s*", "", prompt, flags=IGNORECASE)`. -/
def stripPromptTag (l : Str) : Str :=
  let r1 := skipWs l
  if startsWithStr (ls "prompt") (toLowerStr r1) then
    match skipWs (r1.drop 6) with
    | ':' :: r3 => skipWs r3
    | _ => l
  else l

/-- `[a-zA-Z.'-]`, the word-character class of the player regex heuristics. -/
def nameClassChar (c : Char) : Bool :=
  c.isAlpha || c = '.' || c = '\'' || c = '-'

/-- Candidate matches of `[A-Z][a-zA-Z.'-]+` at the head of `l`, longest
munch first (the regex engine's backtracking order); each entry is the pair
(matched word, rest of the text). -/
def nameWordSplits (l : Str) : List (Str × Str) :=
  match l with
  | [] => []
  | c :: rest =>
    if c.isUpper then
      let run := rest.takeWhile nameClassChar
      let tailRest := rest.drop run.length
      ((List.range run.length).map (fun j => run.length - j)).map
        (fun k => (c :: run.take k, run.drop k ++ tailRest))
    else []

/-- `\s+` returning (consumed whitespace, rest). -/
def wsSplit (l : Str) : Option (Str × Str) :=
  match l with
  | c :: _ =>
    if c.isWhitespace then some (l.takeWhile Char.isWhitespace, l.dropWhile Char.isWhitespace)
    else none
  | [] => none

/-- Candidate matches of `[A-Z][a-zA-Z.'-]+(?:\s+[A-Z][a-zA-Z.'-]+)?` at the
head of `l`, in regex backtracking order: for each first-word munch (longest
first), the two-word extensions (longest second munch first), then the
one-word candidate. -/
def nameGroupSplits (l : Str) : List (Str × Str) :=
  ((nameWordSplits l).map (fun p =>
    (match wsSplit p.2 with
     | some (ws, r2) => (nameWordSplits r2).map (fun q => (p.1 ++ ws ++ q.1, q.2))
     | none => []) ++ [p])).flatten

/-- Anchored attempt of `[Cc]ompare\s+(G)\s+and\s+(G)` where `G` is the name
group above (the leading `\b` is checked by the caller). -/
def compareAt (l : Str) : Option (Str × Str) :=
  match l with
  | c :: rest =>
    if (c = 'C' || c = 'c') && startsWithStr (ls "ompare") rest then
      match wsSplit (rest.drop 6) with
      | some (_, r1) =>
        (nameGroupSplits r1).findSome? (fun p =>
          match wsSplit p.2 with
          | some (_, r2) =>
            if startsWithStr (ls "and") r2 then
              match wsSplit (r2.drop 3) with
              | some (_, r3) =>
                match nameGroupSplits r3 with
                | q :: _ => some (p.1, q.1)
                | [] => none
              | none => none
            else none
          | none => none)
      | none => none
    else none
  | [] => none

/-- `re.search` for the compare heuristic (leading `\b` honoured: `C`/`c` is a
word character, so the previous character must not be one). -/
def compareScanGo : Bool → Str → Option (Str × Str)
  | _, [] => none
  | prevW, c :: rest =>
    match if prevW then none else compareAt (c :: rest) with
    | some g => some g
    | none => compareScanGo (isWordChar c) rest

/-- Leftmost match of the `compare X and Y` fallback regex. -/
def compareSearch (text : Str) : Option (Str × Str) := compareScanGo false text

/-- Anchored attempt of `(G)'s\b` (leading `\b` checked by the caller). -/
def possAt (l : Str) : Option Str :=
  (nameGroupSplits l).findSome? (fun p =>
    match p.2 with
    | '\'' :: 's' :: r2 => if boundaryOk r2 then some p.1 else none
    | _ => none)

/-- `re.search` for the possessive heuristic. -/
def possScanGo : Bool → Str → Option Str
  | _, [] => none
  | prevW, c :: rest =>
    match if prevW then none else possAt (c :: rest) with
    | some g => some g
    | none => possScanGo (isWordChar c) rest

/-- Leftmost match of the `X's` fallback regex. -/
def possSearch (text : Str) : Option Str := possScanGo false text

/-- `self.metric_phrases = sorted(FBREF_METRIC_MAP.keys(), key=len, reverse=True)`. -/
def sortedMetricPhrases : List Str := sortLenDesc metricKeys

/-- `SportsQueryParser._extract_league`: first league whose pattern list has a
substring hit, in table order. -/
def extractLeague (norm : Str) : Option Str :=
  ((leaguePatternTable.find? (fun p => p.2.any (fun pat => containsSub pat norm))).map Prod.fst)

/-- `SportsQueryParser._infer_league_from_teams`: the league looked up for one
extracted team (alias canonicalization first, then lowered lookup). -/
def teamLeagueOf (team : Str) : Option Str :=
  let canonical := (alistGet teamAliases (toLowerStr team)).getD team
  match alistGet teamToLeagueLower (toLowerStr canonical) with
  | some lg => some lg
  | none => alistGet teamToLeagueLower (toLowerStr team)

/-- `SportsQueryParser._infer_league_from_teams`. -/
def inferLeagueFromTeams (teams : List Str) : Option Str :=
  let uniqueLeagues := dedupKeepFirst (teams.filterMap teamLeagueOf)
  if uniqueLeagues.length = 1 then some (uniqueLeagues.headD [])
  else if 1 < uniqueLeagues.length then some (ls "Big 5 European Leagues Combined")
  else none

/-- `league_from_text or league_from_team` (parser.py line 536). -/
def resolveLeague (norm : Str) (teams : List Str) : Option Str :=
  match extractLeague norm with
  | some lg => some lg
  | none => inferLeagueFromTeams teams

/-- `SportsQueryParser._extract_chart_type`. -/
def extractChartType (norm : Str) : Option Str :=
  ((chartPatternTable.find? (fun p => p.2.any (fun pat => containsSub pat norm))).map Prod.fst)

/-- Occurrence overlap test of `_extract_metrics`
(`not (span[1] <= s or span[0] >= e)` for a claimed span `(s, e)`). -/
def spanOverlapB (sp o : Nat × Nat) : Bool :=
  !(decide (sp.2 ≤ o.1) || decide (sp.1 ≥ o.2))

/-- The first occurrence whose span is free of all occupied spans. -/
def firstFreeOcc (occupied : List (Nat × Nat)) (occs : List (Nat × Nat)) :
    Option (Nat × Nat) :=
  occs.find? (fun sp => !(occupied.any (fun o => spanOverlapB sp o)))

/-- The `phrase.lower().strip()` search key of a lexicon phrase. -/
def normPhrase (ph : Str) : Str := trimStr (toLowerStr ph)

/-- The main loop of `SportsQueryParser._extract_metrics`, instrumented with
the claimed spans: for each phrase (in the given order) claim the first
occurrence that does not overlap an already-claimed span. -/
def metricGo : List Str → List (Nat × Nat) → Str → List (Str × (Nat × Nat))
  | [], _, _ => []
  | ph :: rest, occupied, text =>
    match firstFreeOcc occupied (findIter (normPhrase ph) text) with
    | some sp => (ph, sp) :: metricGo rest (occupied ++ [sp]) text
    | none => metricGo rest occupied text

/-- `SportsQueryParser._extract_metrics`. -/
def extractMetrics (norm : Str) : List Str :=
  dedupKeepFirst ((metricGo sortedMetricPhrases [] norm).map Prod.fst)

/-- `SportsQueryParser._extract_stat_type`. -/
def extractStatType (norm : Str) (metrics : List Str) : Str :=
  match statTypePatternTable.find? (fun p => p.2.any (fun pat => containsSub pat norm)) with
  | some p => p.1
  | none =>
    let blob := toLowerStr (joinSpace metrics)
    match metricHintTable.find? (fun p => containsSub p.1 blob) with
    | some p => p.2
    | none => ls "standard"

/-- The external capabilities of the parser, supplied as oracles: `fuzzy`
models the rapidfuzz/difflib candidate scoring (returning the accepted team
for a token window when its score reaches the 92 threshold), `ner` models the
spaCy pipeline (`none` when the capability is unavailable; otherwise the
PERSON-labelled entity spans it yields, as (label, text) pairs). -/
structure Caps where
  fuzzy : Str → Option Str
  ner : Option (Str → List (Str × Str))

/-- The oracle instance with no fuzzy matches and no NER capability (the
configuration in which rapidfuzz and spaCy are not installed and no candidate
reaches the fuzzy threshold). -/
def noCaps : Caps := ⟨fun _ => none, none⟩

/-- `re.findall(r"[a-z0-9']+", text)`: token runs for the fuzzy pass. -/
def fuzzyTokenChar (c : Char) : Bool :=
  (c.isLower && c.isAlpha) || c.isDigit || c = '\''

/-- Maximal runs of fuzzy token characters. -/
def fuzzyTokensGo (cur : Str) : Str → List Str
  | [] => if cur = [] then [] else [cur.reverse]
  | c :: rest =>
    if fuzzyTokenChar c then fuzzyTokensGo (c :: cur) rest
    else if cur = [] then fuzzyTokensGo [] rest
    else cur.reverse :: fuzzyTokensGo [] rest

/-- All `[a-z0-9']+` token runs of the normalized text. -/
def fuzzyTokens (l : Str) : List Str := fuzzyTokensGo [] l

/-- Contiguous 1-4 token windows joined with spaces, in generation order
(window size major).  The Python code collects them in a `set`; its arbitrary
iteration order is modelled by this deterministic first-occurrence order. -/
def tokenWindows (words : List Str) : List Str :=
  dedupKeepFirst
    (([1, 2, 3, 4].map (fun size =>
      (List.range (words.length + 1 - size)).map
        (fun i => joinSpace ((words.drop i).take size)))).flatten)

/-- `SportsQueryParser._extract_teams`. -/
def extractTeams (caps : Caps) (norm : Str) : List Str :=
  let aliasHits := teamAliases.foldl
    (fun acc p => if wbSearch p.1 norm then acc ++ [p.2] else acc) []
  let exactHits := teamNames.foldl
    (fun acc t => if wbSearch (toLowerStr t) norm then acc ++ [t] else acc) []
  let fuzzyHits := (tokenWindows (fuzzyTokens norm)).foldl
    (fun acc cand => match caps.fuzzy cand with
      | some t => acc ++ [t]
      | none => acc) []
  dedupKeepFirst (aliasHits ++ exactHits ++ fuzzyHits)

/-- `is_team_name` inside `_extract_players`. -/
def isTeamName (candidate : Str) : Bool :=
  let n := trimStr (toLowerStr candidate)
  (teamNames.any (fun t => toLowerStr t == n))
  || (teamAliases.any (fun p => p.1 == n || toLowerStr p.2 == n))

/-- `clean_player_candidate` inside `_extract_players`. -/
def cleanPlayerCandidate (candidate : Str) : Str :=
  let cleaned := stripChars [' ', ',', '.', ';', ':', '!', '?'] (collapseWs candidate)
  if cleaned = [] then [] else
  let toks := splitWsTokens cleaned
  let toks := dropLeadingStop toks
  let toks := dropTrailingStop toks
  trimStr (joinSpace toks)
where
  /-- `while len(tokens) > 1 and tokens[0].lower() in PLAYER_LEADING_STOPWORDS`. -/
  dropLeadingStop : List Str → List Str
    | [] => []
    | [t] => [t]
    | t :: rest =>
      if leadingStopwords.any (fun w => w == toLowerStr t) then dropLeadingStop rest
      else t :: rest
  /-- `while len(tokens) > 1 and tokens[-1].lower() in PLAYER_TRAILING_STOPWORDS`. -/
  dropTrailingRev : List Str → List Str
    | [] => []
    | [t] => [t]
    | t :: rest =>
      if trailingStopwords.any (fun w => w == toLowerStr t) then dropTrailingRev rest
      else t :: rest
  dropTrailingStop (toks : List Str) : List Str := (dropTrailingRev toks.reverse).reverse

/-- The primary (NER-driven) path of `_extract_players`: each PERSON entity is
cleaned, then discarded if empty, if its token set is a non-empty subset of
the extracted teams' token set, or if it names a known team or alias. -/
def primaryPlayers (caps : Caps) (prompt : Str) (teams : List Str) : List Str :=
  match caps.ner with
  | none => []
  | some entsOf =>
    let teamTokens := (teams.map (fun t => (splitWsTokens t).map toLowerStr)).flatten
    (entsOf prompt).foldl (fun acc ent =>
      if ent.1 ≠ ls "PERSON" then acc else
      let candidate := cleanPlayerCandidate ent.2
      if candidate = [] then acc else
      let ctoks := (splitWsTokens candidate).map toLowerStr
      if ctoks ≠ [] ∧ ctoks.all (fun t => teamTokens.contains t) then acc else
      if isTeamName candidate then acc else
      acc ++ [candidate]) []

/-- The regex fallback path of `_extract_players`: the `compare X and Y`
heuristic followed by the possessive heuristic, each candidate cleaned and
checked against known team names. -/
def fallbackPlayers (prompt : Str) : List Str :=
  let fromCompare := match compareSearch prompt with
    | some (g1, g2) =>
      [g1, g2].foldl (fun acc g =>
        let candidate := cleanPlayerCandidate g
        if candidate ≠ [] ∧ ¬isTeamName candidate then acc ++ [candidate] else acc) []
    | none => []
  let fromPoss := match possSearch prompt with
    | some g =>
      let candidate := cleanPlayerCandidate g
      if candidate ≠ [] ∧ ¬isTeamName candidate then [candidate] else []
    | none => []
  fromCompare ++ fromPoss

/-- `SportsQueryParser._extract_players`: the fallback runs exactly when the
primary path found nothing and no teams were extracted. -/
def extractPlayers (caps : Caps) (prompt : Str) (teams : List Str) : List Str :=
  let primary := primaryPlayers caps prompt teams
  let players :=
    if primary = [] ∧ teams = [] then primary ++ fallbackPlayers prompt else primary
  dedupKeepFirst players

/-- `SportsQueryParser._infer_metric_type`. -/
def inferMetricType (norm : Str) (teams players : List Str) (league : Option Str) :
    Option Str :=
  if 2 ≤ teams.length ∧
     (containsSub (ls " vs ") norm ∨ containsSub (ls " versus ") norm
      ∨ containsSub (ls " against ") norm ∨ containsSub (ls "compare") norm) then
    some (ls "match")
  else if players ≠ [] then some (ls "player")
  else if teams ≠ [] then some (ls "team")
  else if league.isSome ∨ containsSub (ls "standings") norm ∨ containsSub (ls "table") norm then
    some (ls "league")
  else none

/-- `DEFAULT_METRICS.get(stat_type, ["all"])`. -/
def defaultMetricsFor (statType : Str) : List Str :=
  (alistGet defaultMetricsTable statType).getD [ls "all"]

/-- The descriptor returned for empty or non-string input (`DEFAULT_PARSE`
with `league` set to `DEFAULT_LEAGUE`). -/
def emptyDescriptor : Descriptor :=
  { team := Val.null
    league := Val.str defaultLeague
    player := Val.null
    season := Val.null
    stat_type := Val.str (ls "standard")
    metric := Val.null
    metric_type := Val.null
    chart_type := Val.null }

/-- The metric backfill of `parse` (parser.py 553-554): a missing metric is
replaced by the default metrics of the resolved stat type. -/
def backfillMetric (metrics : List Str) (statType : Str) : Val :=
  match asScalarOrList metrics with
  | Val.null => Val.list (defaultMetricsFor statType)
  | v => v

/-- The conservative chart default (parser.py 557-561): `bar` when the metric
type is team/player/match and the (possibly backfilled) metric is a list with
more than one element, otherwise `table`. -/
def chartDefault (metricType : Option Str) (metricVal : Val) : Val :=
  if (metricType == some (ls "team") || metricType == some (ls "player")
      || metricType == some (ls "match"))
     && (match metricVal with | Val.list xs => decide (1 < xs.length) | _ => false) then
    Val.str (ls "bar")
  else Val.str (ls "table")

/-- Chart resolution after backfill: explicit hit or default policy. -/
def resolveChart (chart : Option Str) (metricType : Option Str) (metricVal : Val) : Val :=
  match chart with
  | some c => Val.str c
  | none => chartDefault metricType metricVal

/-- The body of `SportsQueryParser.parse` for valid (non-empty string) input. -/
def parseValid (caps : Caps) (prompt0 : Str) : Descriptor :=
  let prompt := stripPromptTag prompt0
  let norm := normalizeText prompt
  let teams := extractTeams caps norm
  let players := extractPlayers caps prompt teams
  let league := resolveLeague norm teams
  let metrics := extractMetrics norm
  let statType := extractStatType norm metrics
  let season := extractSeason prompt norm
  let chart := extractChartType norm
  let metricType := inferMetricType norm teams players league
  let metricVal := backfillMetric metrics statType
  let chartVal := resolveChart chart metricType metricVal
  { team := asScalarOrList teams
    league := Val.str (league.getD defaultLeague)
    player := asScalarOrList players
    season := season
    stat_type := Val.str statType
    metric := metricVal
    metric_type := match metricType with | some m => Val.str m | none => Val.null
    chart_type := chartVal }

/-- `SportsQueryParser.parse`: non-string input is the `none` case, empty or
whitespace-only strings short-circuit to the default descriptor. -/
def parse (caps : Caps) (input : Option String) : Descriptor :=
  match input with
  | none => emptyDescriptor
  | some s => if trimStr s.toList = [] then emptyDescriptor else parseValid caps s.toList

/-! ## General lemmas about the embedding -/

theorem asScalarOrList_eq_null_iff (xs : List Str) :
    asScalarOrList xs = Val.null ↔ xs = [] := by
  cases xs with
  | nil => simp [asScalarOrList]
  | cons x rest => cases rest <;> simp [asScalarOrList]

theorem asScalarOrList_singleton (x : Str) : asScalarOrList [x] = Val.str x := rfl

theorem asScalarOrList_eq_list_iff (xs ys : List Str) :
    asScalarOrList xs = Val.list ys ↔ xs = ys ∧ 2 ≤ ys.length := by
  cases xs with
  | nil =>
    simp only [asScalarOrList]
    constructor
    · intro h; exact absurd h (by simp)
    · rintro ⟨rfl, h⟩; simp at h
  | cons x rest =>
    cases rest with
    | nil =>
      simp only [asScalarOrList]
      constructor
      · intro h; exact absurd h (by simp)
      · rintro ⟨rfl, h⟩; simp at h
    | cons y more =>
      simp only [asScalarOrList]
      constructor
      · intro h; cases h; simp
      · rintro ⟨rfl, _⟩; rfl

theorem mem_dedupKeepFirstGo [DecidableEq α] (x : α) :
    ∀ (l seen : List α), x ∈ dedupKeepFirstGo seen l ↔ x ∈ l ∧ x ∉ seen := by
  intro l
  induction l with
  | nil => intro seen; simp [dedupKeepFirstGo]
  | cons y ys ih =>
    intro seen
    by_cases hy : y ∈ seen
    · rw [dedupKeepFirstGo, if_pos hy, ih]
      constructor
      · rintro ⟨h1, h2⟩; exact ⟨List.mem_cons_of_mem _ h1, h2⟩
      · rintro ⟨h1, h2⟩
        rcases List.mem_cons.mp h1 with rfl | h1
        · exact absurd hy h2
        · exact ⟨h1, h2⟩
    · rw [dedupKeepFirstGo, if_neg hy]
      constructor
      · intro h
        rcases List.mem_cons.mp h with rfl | h
        · exact ⟨List.mem_cons_self _ _, hy⟩
        · rw [ih] at h
          refine ⟨List.mem_cons_of_mem _ h.1, ?_⟩
          intro hx
          exact h.2 (List.mem_cons_of_mem _ hx)
      · rintro ⟨h1, h2⟩
        by_cases hxy : x = y
        · subst hxy; exact List.mem_cons_self _ _
        · rcases List.mem_cons.mp h1 with rfl | h1
          · exact absurd rfl hxy
          · refine List.mem_cons_of_mem _ ?_
            rw [ih]
            refine ⟨h1, ?_⟩
            intro hx
            rcases List.mem_cons.mp hx with rfl | hx
            · exact hxy rfl
            · exact h2 hx

theorem mem_dedupKeepFirst [DecidableEq α] (x : α) (l : List α) :
    x ∈ dedupKeepFirst l ↔ x ∈ l := by
  simp [dedupKeepFirst, mem_dedupKeepFirstGo]

theorem dedupKeepFirstGo_eq_self [DecidableEq α] :
    ∀ (l seen : List α), l.Nodup → (∀ x ∈ l, x ∉ seen) →
      dedupKeepFirstGo seen l = l := by
  intro l
  induction l with
  | nil => intro seen _ _; rfl
  | cons y ys ih =>
    intro seen hnd hdis
    rw [dedupKeepFirstGo, if_neg (hdis y (List.mem_cons_self _ _))]
    congr 1
    refine ih (y :: seen) (List.Nodup.of_cons hnd) ?_
    intro x hx
    intro hmem
    rcases List.mem_cons.mp hmem with rfl | hmem
    · exact (List.nodup_cons.mp hnd).1 hx
    · exact hdis x (List.mem_cons_of_mem _ hx) hmem

theorem dedupKeepFirst_eq_self [DecidableEq α] (l : List α) (h : l.Nodup) :
    dedupKeepFirst l = l :=
  dedupKeepFirstGo_eq_self l [] h (by simp)

theorem startsWithStr_take :
    ∀ (p l : Str), startsWithStr p l = true → l.take p.length = p := by
  intro p
  induction p with
  | nil => intro l _; simp
  | cons a ps ih =>
    intro l h
    cases l with
    | nil => simp [startsWithStr] at h
    | cons c cs =>
      rw [startsWithStr, Bool.and_eq_true, decide_eq_true_eq] at h
      obtain ⟨rfl, h2⟩ := h
      simpa [List.take] using ih cs h2

/-! ## Unfolding lemmas for `parse` and the fields of `parseValid` -/

theorem parse_none (caps : Caps) : parse caps none = emptyDescriptor := rfl

theorem parse_some_empty (caps : Caps) (s : String) (h : trimStr s.toList = []) :
    parse caps (some s) = emptyDescriptor := by
  simp only [parse]
  rw [if_pos h]

theorem parse_some_valid (caps : Caps) (s : String) (h : trimStr s.toList ≠ []) :
    parse caps (some s) = parseValid caps s.toList := by
  simp only [parse]
  rw [if_neg h]

theorem parseValid_team (caps : Caps) (l : Str) :
    (parseValid caps l).team =
      asScalarOrList (extractTeams caps (normalizeText (stripPromptTag l))) := rfl

theorem parseValid_league (caps : Caps) (l : Str) :
    (parseValid caps l).league =
      Val.str ((resolveLeague (normalizeText (stripPromptTag l))
        (extractTeams caps (normalizeText (stripPromptTag l)))).getD defaultLeague) := rfl

theorem parseValid_player (caps : Caps) (l : Str) :
    (parseValid caps l).player =
      asScalarOrList (extractPlayers caps (stripPromptTag l)
        (extractTeams caps (normalizeText (stripPromptTag l)))) := rfl

theorem parseValid_season (caps : Caps) (l : Str) :
    (parseValid caps l).season =
      extractSeason (stripPromptTag l) (normalizeText (stripPromptTag l)) := rfl

theorem parseValid_stat_type (caps : Caps) (l : Str) :
    (parseValid caps l).stat_type =
      Val.str (extractStatType (normalizeText (stripPromptTag l))
        (extractMetrics (normalizeText (stripPromptTag l)))) := rfl

theorem parseValid_metric (caps : Caps) (l : Str) :
    (parseValid caps l).metric =
      backfillMetric (extractMetrics (normalizeText (stripPromptTag l)))
        (extractStatType (normalizeText (stripPromptTag l))
          (extractMetrics (normalizeText (stripPromptTag l)))) := by
  simp only [parseValid]

theorem parseValid_metric_type (caps : Caps) (l : Str) :
    (parseValid caps l).metric_type =
      (match inferMetricType (normalizeText (stripPromptTag l))
          (extractTeams caps (normalizeText (stripPromptTag l)))
          (extractPlayers caps (stripPromptTag l)
            (extractTeams caps (normalizeText (stripPromptTag l))))
          (resolveLeague (normalizeText (stripPromptTag l))
            (extractTeams caps (normalizeText (stripPromptTag l)))) with
       | some m => Val.str m
       | none => Val.null) := by
  simp only [parseValid]

/-! ## Claim C2 -/

/-- C2: for every input that is empty, whitespace-only, or not a string,
`parse` short-circuits before any extraction and returns the descriptor whose
fields are all null except `league` (the system default league) and
`stat_type` (`"standard"`); the embedding is a total function, so no
exception reaches the caller. -/
theorem c2_empty_input_default (caps : Caps) (input : Option String)
    (h : input = none ∨ ∃ s, input = some s ∧ trimStr s.toList = []) :
    parse caps input = emptyDescriptor ∧
    emptyDescriptor =
      { team := Val.null, league := Val.str (ls "Big 5 European Leagues Combined"),
        player := Val.null, season := Val.null, stat_type := Val.str (ls "standard"),
        metric := Val.null, metric_type := Val.null, chart_type := Val.null } := by
  refine ⟨?_, rfl⟩
  rcases h with rfl | ⟨s, rfl, hs⟩
  · rfl
  · exact parse_some_empty caps s hs

/-- Witness for C2 at the concrete whitespace-only input `"  "`. -/
theorem c2_empty_input_default_witness :
    parse noCaps (some "  ") = emptyDescriptor :=
  (c2_empty_input_default noCaps (some "  ") (Or.inr ⟨"  ", rfl, by decide⟩)).1

/-! ## Claim C10 -/

/-- C10: the `league` field of the returned descriptor is never null: when
neither the explicit pattern pass nor team-membership inference resolves a
league (`resolveLeague` is `none`), and also on the empty/non-string input
path, it is set to the default `"Big 5 European Leagues Combined"`. -/
theorem c10_league_never_null (caps : Caps) (input : Option String) :
    (∃ lg, (parse caps input).league = Val.str lg) ∧
    (∀ s, input = some s → trimStr s.toList ≠ [] →
      resolveLeague (normalizeText (stripPromptTag s.toList))
        (extractTeams caps (normalizeText (stripPromptTag s.toList))) = none →
      (parse caps input).league = Val.str defaultLeague) ∧
    (input = none → (parse caps input).league = Val.str defaultLeague) := by
  refine ⟨?_, ?_, ?_⟩
  · cases input with
    | none => exact ⟨defaultLeague, rfl⟩
    | some s =>
      by_cases hs : trimStr s.toList = []
      · exact ⟨defaultLeague, by rw [parse_some_empty caps s hs]; rfl⟩
      · exact ⟨_, by rw [parse_some_valid caps s hs, parseValid_league]⟩
  · rintro s rfl hs hres
    rw [parse_some_valid caps s hs, parseValid_league, hres]
    rfl
  · rintro rfl; rfl

/-- Witness for C10: on input `"a"` nothing resolves a league, and the
returned league is the default. -/
theorem c10_league_never_null_witness :
    (parse noCaps (some "a")).league = Val.str defaultLeague :=
  (c10_league_never_null noCaps (some "a")).2.1 "a" rfl (by decide) (by decide)

/-! ## Claim C1 -/

/-- C1 counterexample: on the empty input the claim fails — `parse` returns
before the backfill, so the `metric` field of the descriptor is null (the
claim asserts it is non-null for all inputs including the empty one). -/
theorem c1_empty_metric_null_counterexample :
    (parse noCaps (some "")).metric = Val.null := by decide

/-- C1 (amended): for every *non-empty* string input, the `metric` field of
the descriptor is non-null, and when the metric extractor finds no phrase it
is backfilled from the Default-Metrics table keyed by the resolved stat type
(`defaultMetricsFor` falls back to the `["all"]` sentinel for a stat type
without an entry).  On the empty/non-string path `metric` is null. -/
theorem c1_metric_backfill_amended (caps : Caps) (s : String)
    (h : trimStr s.toList ≠ []) :
    (parse caps (some s)).metric ≠ Val.null ∧
    (extractMetrics (normalizeText (stripPromptTag s.toList)) = [] →
      (parse caps (some s)).metric =
        Val.list (defaultMetricsFor
          (extractStatType (normalizeText (stripPromptTag s.toList)) []))) := by
  rw [parse_some_valid caps s h, parseValid_metric]
  constructor
  · unfold backfillMetric
    cases hm : asScalarOrList (extractMetrics (normalizeText (stripPromptTag s.toList))) with
    | null => simp
    | str w => simp
    | list ws => simp
  · intro hm
    rw [hm]
    rfl

/-- Witness for the amended C1 at the concrete input `"a"`. -/
theorem c1_metric_backfill_amended_witness :
    trimStr (ls "a") ≠ [] ∧ (parse noCaps (some "a")).metric ≠ Val.null :=
  ⟨by decide, (c1_metric_backfill_amended noCaps "a" (by decide)).1⟩

/-! ## Claim C6 -/

/-- C6: explicit textual league patterns take priority over team-membership
inference; with no explicit hit, the resolver returns the single shared
league when all recognized teams map to one league, the reserved
`"Big 5 European Leagues Combined"` sentinel when they span two or more
leagues, and null when no team has a known league. -/
theorem c6_league_priority_and_inference (norm : Str) (teams : List Str) :
    (∀ lg, extractLeague norm = some lg → resolveLeague norm teams = some lg) ∧
    (extractLeague norm = none →
      resolveLeague norm teams = inferLeagueFromTeams teams) ∧
    (∀ lg, dedupKeepFirst (teams.filterMap teamLeagueOf) = [lg] →
      inferLeagueFromTeams teams = some lg) ∧
    (2 ≤ (dedupKeepFirst (teams.filterMap teamLeagueOf)).length →
      inferLeagueFromTeams teams = some (ls "Big 5 European Leagues Combined")) ∧
    (dedupKeepFirst (teams.filterMap teamLeagueOf) = [] →
      inferLeagueFromTeams teams = none) := by
  refine ⟨?_, ?_, ?_, ?_, ?_⟩
  · intro lg h; simp [resolveLeague, h]
  · intro h; simp [resolveLeague, h]
  · intro lg h
    simp [inferLeagueFromTeams, h]
  · intro h
    simp only [inferLeagueFromTeams]
    rw [if_neg (by omega), if_pos (by omega)]
  · intro h
    simp [inferLeagueFromTeams, h]

/-- Witness for C6: an explicit pattern hit wins, and two teams of different
leagues resolve to the combined-leagues sentinel. -/
theorem c6_league_priority_and_inference_witness :
    resolveLeague (ls "epl assists") [] = some (ls "ENG-Premier League") ∧
    inferLeagueFromTeams [ls "Arsenal", ls "Barcelona"] =
      some (ls "Big 5 European Leagues Combined") :=
  ⟨(c6_league_priority_and_inference (ls "epl assists") []).1 _ (by decide),
   (c6_league_priority_and_inference [] [ls "Arsenal", ls "Barcelona"]).2.2.2.1 (by decide)⟩

/-! ## Claim C7 -/

/-- C7 counterexample: the recognition capability being unavailable does not
imply the fallback runs.  With no NER capability but a non-empty team list,
`_extract_players` returns no players at all, although the fallback heuristic
would have produced candidates on the same prompt (second conjunct, with the
team list empty). -/
theorem c7_ner_unavailable_no_fallback_counterexample :
    extractPlayers noCaps (ls "Compare Messi and Ronaldo") [ls "Arsenal"] = [] ∧
    extractPlayers noCaps (ls "Compare Messi and Ronaldo") [] =
      [ls "Messi", ls "Ronaldo"] := by decide

/-- C7 (amended): the regex fallback runs exactly when the primary
(NER-driven) path yields no surviving candidates *and* no teams were
extracted; an unavailable recognition capability makes the primary path
empty, so in that case the fallback is applied precisely when the team list
is also empty. -/
theorem c7_fallback_condition_amended (caps : Caps) (prompt : Str) (teams : List Str) :
    (caps.ner = none → primaryPlayers caps prompt teams = []) ∧
    (primaryPlayers caps prompt teams = [] ∧ teams = [] →
      extractPlayers caps prompt teams =
        dedupKeepFirst (primaryPlayers caps prompt teams ++ fallbackPlayers prompt)) ∧
    (¬(primaryPlayers caps prompt teams = [] ∧ teams = []) →
      extractPlayers caps prompt teams =
        dedupKeepFirst (primaryPlayers caps prompt teams)) := by
  refine ⟨?_, ?_, ?_⟩
  · intro h; simp [primaryPlayers, h]
  · intro h
    simp only [extractPlayers]
    rw [if_pos h]
  · intro h
    simp only [extractPlayers]
    rw [if_neg h]

/-- Witness for the amended C7 on a concrete prompt with no teams. -/
theorem c7_fallback_condition_amended_witness :
    extractPlayers noCaps (ls "Compare Xavi and Pirlo") [] =
      dedupKeepFirst (primaryPlayers noCaps (ls "Compare Xavi and Pirlo") [] ++
        fallbackPlayers (ls "Compare Xavi and Pirlo")) :=
  (c7_fallback_condition_amended noCaps (ls "Compare Xavi and Pirlo") []).2.1 ⟨rfl, rfl⟩

/-! ## Claim C3 -/

theorem defaultMetricsFor_ne_nil (st : Str) : defaultMetricsFor st ≠ [] := by
  unfold defaultMetricsFor alistGet
  cases hf : defaultMetricsTable.find? (fun p => p.1 == st) with
  | none => simp
  | some p =>
    have hp := List.mem_of_find?_eq_some hf
    have hall : ∀ q ∈ defaultMetricsTable, q.2 ≠ [] := by decide
    simpa using hall p hp

theorem extractSeason_list_len (prompt norm : Str) (xs : List Str)
    (h : extractSeason prompt norm = Val.list xs) : 2 ≤ xs.length := by
  simp only [extractSeason] at h
  split at h
  · rename_i hne
    split at h
    · exact absurd h (by simp)
    · rename_i hlen
      injection h with h2
      subst h2
      have h0 := List.length_pos.mpr hne
      omega
  · split at h
    · rename_i hne
      split at h
      · exact absurd h (by simp)
      · rename_i hlen
        injection h with h2
        subst h2
        have h0 := List.length_pos.mpr hne
        omega
    · split at h
      · exact absurd h (by simp)
      · split at h
        · exact absurd h (by simp)
        · split at h
          · rename_i n hsc
            split at h
            · rename_i hlen
              injection h with h2
              subst h2
              omega
            · exact absurd h (by simp)
          · exact absurd h (by simp)

/-- C3 counterexample: on the input `"a"` the metric extractor finds zero
candidates, yet the `metric` field of the returned descriptor is the
backfilled default list, not null as the claim requires. -/
theorem c3_metric_zero_backfilled_counterexample :
    extractMetrics (normalizeText (stripPromptTag (ls "a"))) = [] ∧
    (parse noCaps (some "a")).metric =
      Val.list [ls "goals", ls "assists", ls "minutes"] := by decide

theorem extractSeason_collapse (prompt norm : Str) :
    (extractSeason prompt norm = Val.null ↔
      (dedupKeepFirst ((rangeFindAll prompt).map (fun p => compactRange p.1 p.2)) = [] ∧
       dedupKeepFirst ((yearFindAll prompt).map
         (fun (y : Nat) => compactSeason (Int.ofNat y) none)) = [] ∧
       containsSub (ls "this season") norm = false ∧
       containsSub (ls "last season") norm = false ∧
       lastNScan norm = none)) ∧
    (∀ c, dedupKeepFirst ((rangeFindAll prompt).map (fun p => compactRange p.1 p.2)) = [c] →
      extractSeason prompt norm = Val.str c) ∧
    (∀ c, dedupKeepFirst ((rangeFindAll prompt).map (fun p => compactRange p.1 p.2)) = [] →
      dedupKeepFirst ((yearFindAll prompt).map
        (fun (y : Nat) => compactSeason (Int.ofNat y) none)) = [c] →
      extractSeason prompt norm = Val.str c) ∧
    (∀ n, dedupKeepFirst ((rangeFindAll prompt).map (fun p => compactRange p.1 p.2)) = [] →
      dedupKeepFirst ((yearFindAll prompt).map
        (fun (y : Nat) => compactSeason (Int.ofNat y) none)) = [] →
      containsSub (ls "this season") norm = false →
      containsSub (ls "last season") norm = false →
      lastNScan norm = some n → max 1 n = 1 →
      extractSeason prompt norm = Val.str (twoDigitCode 2023)) := by
  refine ⟨⟨?_, ?_⟩, ?_, ?_, ?_⟩
  · intro h
    simp only [extractSeason] at h
    split at h
    · split at h <;> exact absurd h (by simp)
    · rename_i hr
      split at h
      · split at h <;> exact absurd h (by simp)
      · rename_i hy
        split at h
        · exact absurd h (by simp)
        · rename_i ht
          split at h
          · exact absurd h (by simp)
          · rename_i hl
            split at h
            · split at h <;> exact absurd h (by simp)
            · rename_i hn
              exact ⟨not_not.mp hr, not_not.mp hy, Bool.eq_false_iff.mpr ht,
                Bool.eq_false_iff.mpr hl, hn⟩
  · rintro ⟨h1, h2, h3, h4, h5⟩
    simp only [extractSeason, h1, h2, h3, h4, h5]
    simp
  · intro c h
    simp [extractSeason, h]
  · intro c h1 h2
    simp only [extractSeason, h1, h2]
    simp
  · intro n h1 h2 h3 h4 h5 h6
    simp only [extractSeason, h1, h2, h3, h4, h5]
    rw [if_neg (by simp), if_neg (by simp), if_neg (by simp), if_neg (by simp)]
    rw [h6]
    decide

/-- C3 (amended): the collapsing law holds as stated for `team`, `player` and
`season`, and for `metric` whenever at least one phrase is found.  For team
and player: zero candidates yield null, exactly one yields a scalar, a list
always has at least two elements.  For season: the field is null exactly when
every season rule finds nothing, a single surviving range code or year code
(and a `last/past 1 seasons` match) collapses to a scalar, and a season list
always has at least two elements.  For metric with zero candidates the final
field is the backfilled non-empty default list rather than null. -/
theorem c3_collapsing_amended (caps : Caps) (s : String)
    (h : trimStr s.toList ≠ []) :
    ((parse caps (some s)).team =
       asScalarOrList (extractTeams caps (normalizeText (stripPromptTag s.toList))) ∧
     ((parse caps (some s)).team = Val.null ↔
       extractTeams caps (normalizeText (stripPromptTag s.toList)) = []) ∧
     (∀ x, extractTeams caps (normalizeText (stripPromptTag s.toList)) = [x] →
       (parse caps (some s)).team = Val.str x) ∧
     (∀ xs, (parse caps (some s)).team = Val.list xs → 2 ≤ xs.length)) ∧
    ((parse caps (some s)).player =
       asScalarOrList (extractPlayers caps (stripPromptTag s.toList)
         (extractTeams caps (normalizeText (stripPromptTag s.toList)))) ∧
     ((parse caps (some s)).player = Val.null ↔
       extractPlayers caps (stripPromptTag s.toList)
         (extractTeams caps (normalizeText (stripPromptTag s.toList))) = []) ∧
     (∀ x, extractPlayers caps (stripPromptTag s.toList)
         (extractTeams caps (normalizeText (stripPromptTag s.toList))) = [x] →
       (parse caps (some s)).player = Val.str x) ∧
     (∀ xs, (parse caps (some s)).player = Val.list xs → 2 ≤ xs.length)) ∧
    ((parse caps (some s)).season =
       extractSeason (stripPromptTag s.toList) (normalizeText (stripPromptTag s.toList)) ∧
     ((parse caps (some s)).season = Val.null ↔
       (dedupKeepFirst ((rangeFindAll (stripPromptTag s.toList)).map
          (fun p => compactRange p.1 p.2)) = [] ∧
        dedupKeepFirst ((yearFindAll (stripPromptTag s.toList)).map
          (fun (y : Nat) => compactSeason (Int.ofNat y) none)) = [] ∧
        containsSub (ls "this season") (normalizeText (stripPromptTag s.toList)) = false ∧
        containsSub (ls "last season") (normalizeText (stripPromptTag s.toList)) = false ∧
        lastNScan (normalizeText (stripPromptTag s.toList)) = none)) ∧
     (∀ c, dedupKeepFirst ((rangeFindAll (stripPromptTag s.toList)).map
          (fun p => compactRange p.1 p.2)) = [c] →
       (parse caps (some s)).season = Val.str c) ∧
     (∀ c, dedupKeepFirst ((rangeFindAll (stripPromptTag s.toList)).map
          (fun p => compactRange p.1 p.2)) = [] →
       dedupKeepFirst ((yearFindAll (stripPromptTag s.toList)).map
          (fun (y : Nat) => compactSeason (Int.ofNat y) none)) = [c] →
       (parse caps (some s)).season = Val.str c) ∧
     (∀ n, dedupKeepFirst ((rangeFindAll (stripPromptTag s.toList)).map
          (fun p => compactRange p.1 p.2)) = [] →
       dedupKeepFirst ((yearFindAll (stripPromptTag s.toList)).map
          (fun (y : Nat) => compactSeason (Int.ofNat y) none)) = [] →
       containsSub (ls "this season") (normalizeText (stripPromptTag s.toList)) = false →
       containsSub (ls "last season") (normalizeText (stripPromptTag s.toList)) = false →
       lastNScan (normalizeText (stripPromptTag s.toList)) = some n → max 1 n = 1 →
       (parse caps (some s)).season = Val.str (twoDigitCode 2023)) ∧
     (∀ xs, (parse caps (some s)).season = Val.list xs → 2 ≤ xs.length)) ∧
    ((extractMetrics (normalizeText (stripPromptTag s.toList)) ≠ [] →
       (parse caps (some s)).metric =
         asScalarOrList (extractMetrics (normalizeText (stripPromptTag s.toList)))) ∧
     (∀ xs, (parse caps (some s)).metric = Val.list xs → xs ≠ [])) := by
  rw [parse_some_valid caps s h]
  refine ⟨⟨parseValid_team caps s.toList, ?_, ?_, ?_⟩,
          ⟨parseValid_player caps s.toList, ?_, ?_, ?_⟩,
          ⟨parseValid_season caps s.toList, ?_, ?_, ?_, ?_, ?_⟩, ?_, ?_⟩
  · rw [parseValid_team, asScalarOrList_eq_null_iff]
  · intro x hx
    rw [parseValid_team, hx]
    rfl
  · intro xs hxs
    rw [parseValid_team] at hxs
    exact ((asScalarOrList_eq_list_iff _ _).mp hxs).2
  · rw [parseValid_player, asScalarOrList_eq_null_iff]
  · intro x hx
    rw [parseValid_player, hx]
    rfl
  · intro xs hxs
    rw [parseValid_player] at hxs
    exact ((asScalarOrList_eq_list_iff _ _).mp hxs).2
  · rw [parseValid_season]
    exact (extractSeason_collapse _ _).1
  · intro c hc
    rw [parseValid_season]
    exact (extractSeason_collapse _ _).2.1 c hc
  · intro c h1 h2
    rw [parseValid_season]
    exact (extractSeason_collapse _ _).2.2.1 c h1 h2
  · intro n h1 h2 h3 h4 h5 h6
    rw [parseValid_season]
    exact (extractSeason_collapse _ _).2.2.2 n h1 h2 h3 h4 h5 h6
  · intro xs hxs
    rw [parseValid_season] at hxs
    exact extractSeason_list_len _ _ _ hxs
  · intro hne
    rw [parseValid_metric]
    unfold backfillMetric
    cases hc : asScalarOrList (extractMetrics (normalizeText (stripPromptTag s.toList))) with
    | null => exact absurd ((asScalarOrList_eq_null_iff _).mp hc) hne
    | str w => rfl
    | list ws => rfl
  · intro xs hxs
    rw [parseValid_metric] at hxs
    unfold backfillMetric at hxs
    cases hc : asScalarOrList (extractMetrics (normalizeText (stripPromptTag s.toList))) with
    | null =>
      rw [hc] at hxs
      injection hxs with h2
      intro h0
      rw [h0] at h2
      exact defaultMetricsFor_ne_nil _ h2
    | str w =>
      rw [hc] at hxs
      exact absurd hxs (by simp)
    | list ws =>
      rw [hc] at hxs
      injection hxs with h2
      subst h2
      have := ((asScalarOrList_eq_list_iff _ _).mp hc).2
      intro h0
      rw [h0] at this
      simp at this

/-- Witness for the amended C3 at the concrete input `"a"` (no teams found,
so the `team` field collapses to null, and no season rule fires, so the
`season` field is null). -/
theorem c3_collapsing_amended_witness :
    trimStr (ls "a") ≠ [] ∧ (parse noCaps (some "a")).team = Val.null ∧
    (parse noCaps (some "a")).season = Val.null :=
  ⟨by decide,
   ((c3_collapsing_amended noCaps "a" (by decide)).1.2.1).mpr (by decide),
   ((c3_collapsing_amended noCaps "a" (by decide)).2.2.1.2.1).mpr (by decide)⟩

/-! ## Claim C5 -/

theorem dedupKeepFirst_nil [DecidableEq α] : dedupKeepFirst ([] : List α) = [] := rfl

theorem reverse_range_map (k : Nat) (f : Nat → α) :
    ((List.range k).reverse).map f = (List.range k).map (fun (i : Nat) => f (k - 1 - i)) := by
  apply List.ext_getElem
  · simp
  · intro i h1 h2
    simp only [List.getElem_map, List.getElem_reverse, List.getElem_range,
      List.length_map, List.length_reverse, List.length_range] at *

theorem range_getLast? (k : Nat) (h : 1 ≤ k) :
    (List.range k).getLast? = some (k - 1) := by
  cases k with
  | zero => omega
  | succ m => rw [List.range_succ]; simp

/-- C5: when no higher-priority season rule fires and the `last/past N
seasons` pattern matches with count `n`, the extractor returns `max 1 n`
consecutive single-year compact codes counting backward from the fixed
reference start year 2023, oldest first (a scalar when `max 1 n = 1`), and
the produced sequence ends at the reference season code. -/
theorem c5_last_n_seasons (prompt norm : Str) (n : Nat)
    (h1 : rangeFindAll prompt = [])
    (h2 : yearFindAll prompt = [])
    (h3 : containsSub (ls "this season") norm = false)
    (h4 : containsSub (ls "last season") norm = false)
    (h5 : lastNScan norm = some n) :
    extractSeason prompt norm =
      (if max 1 n = 1 then Val.str (twoDigitCode 2023)
       else Val.list ((List.range (max 1 n)).map
         (fun (i : Nat) => twoDigitCode (2023 - (((max 1 n : Nat) : Int) - 1) + (i : Int))))) ∧
    (extractSeason prompt norm = Val.str (twoDigitCode 2023) ∨
     ∃ xs, extractSeason prompt norm = Val.list xs ∧ xs.length = max 1 n ∧
       xs.getLast? = some (twoDigitCode 2023)) := by
  have hk : 1 ≤ max 1 n := le_max_left 1 n
  have key : extractSeason prompt norm =
      (if max 1 n = 1 then Val.str (twoDigitCode 2023)
       else Val.list ((List.range (max 1 n)).map
         (fun (i : Nat) => twoDigitCode (2023 - (((max 1 n : Nat) : Int) - 1) + (i : Int))))) := by
    simp only [extractSeason, h1, h2, h3, h4, h5, List.map_nil, dedupKeepFirst_nil]
    rw [if_neg (by simp [dedupKeepFirst_nil]), if_neg (by simp [dedupKeepFirst_nil]),
      if_neg (by simp [h3]), if_neg (by simp [h4])]
    simp only [compactSeason]
    rw [reverse_range_map]
    have hlen : ((List.range (max 1 n)).map
        (fun (i : Nat) => twoDigitCode ((2023 : Int) - ((max 1 n - 1 - i : Nat) : Int)))).length
          = max 1 n := by simp
    by_cases hone : max 1 n = 1
    · rw [if_neg (by rw [hlen, hone]; omega), if_pos hone]
      rw [hone]
      decide
    · rw [if_pos (by rw [hlen]; omega), if_neg hone]
      congr 1
      apply List.map_congr_left
      intro i hi
      rw [List.mem_range] at hi
      congr 1
      omega
  refine ⟨key, ?_⟩
  by_cases hone : max 1 n = 1
  · left
    rw [key, if_pos hone]
  · right
    refine ⟨(List.range (max 1 n)).map
        (fun (i : Nat) => twoDigitCode (2023 - (((max 1 n : Nat) : Int) - 1) + (i : Int))),
      by rw [key, if_neg hone], by simp, ?_⟩
    rw [List.getLast?_map, range_getLast? _ (by omega)]
    simp only [Option.map_some']
    congr 1
    have h2 : 1 ≤ max 1 n := hk
    generalize max 1 n = k at h2 ⊢
    have hsub : ((k - 1 : Nat) : Int) = (k : Int) - 1 := by omega
    rw [hsub]
    ring_nf

/-- Witness for C5: the spec's scenario `past 5 seasons` yields the five
consecutive codes 19..23, oldest first, ending at the reference season. -/
theorem c5_last_n_seasons_witness :
    extractSeason (ls "Liverpool possession stats past 5 seasons")
      (normalizeText (ls "Liverpool possession stats past 5 seasons")) =
      Val.list [ls "19", ls "20", ls "21", ls "22", ls "23"] :=
  ((c5_last_n_seasons _ _ 5 (by decide) (by decide) (by decide) (by decide)
    (by decide)).1).trans (by decide)

/-! ## Claim C4 -/

theorem isDigitB_lt (c : Char) (h : isDigitB c = true) : digitVal c < 10 := by
  unfold isDigitB at h
  rw [Bool.and_eq_true, decide_eq_true_eq, decide_eq_true_eq] at h
  unfold digitVal
  omega

theorem rangeAt_sound :
    ∀ (l : Str) (s e : Nat) (rest : Str),
      rangeAt l = some (s, e, rest) → 2000 ≤ s ∧ s < 2100 ∧ e < 10000 := by
  intro l s e rest h
  unfold rangeAt at h
  split at h
  · rename_i d1 d2 rest0
    split at h
    · rename_i hd
      rw [Bool.and_eq_true] at hd
      have hd1 := isDigitB_lt _ hd.1
      have hd2 := isDigitB_lt _ hd.2
      split at h
      · rename_i sep r2
        split at h
        · split at h
          · rename_i a b r4
            split at h
            · rename_i hab
              rw [Bool.and_eq_true] at hab
              have ha := isDigitB_lt _ hab.1
              have hb := isDigitB_lt _ hab.2
              split at h
              · simp only [Option.some.injEq, Prod.mk.injEq] at h
                obtain ⟨rfl, rfl, rfl⟩ := h
                omega
              · split at h
                · rename_i c d r5
                  split at h
                  · rename_i hcd
                    rw [Bool.and_eq_true, Bool.and_eq_true] at hcd
                    have hc := isDigitB_lt _ hcd.1.1
                    have hd' := isDigitB_lt _ hcd.1.2
                    simp only [Option.some.injEq, Prod.mk.injEq] at h
                    obtain ⟨rfl, rfl, rfl⟩ := h
                    omega
                  · exact absurd h (by simp)
                · exact absurd h (by simp)
            · exact absurd h (by simp)
          · exact absurd h (by simp)
        · exact absurd h (by simp)
      · exact absurd h (by simp)
    · exact absurd h (by simp)
  · exact absurd h (by simp)

theorem rangeScanGo_sound :
    ∀ (fuel : Nat) (w : Bool) (l : Str) (s e : Nat),
      (s, e) ∈ rangeScanGo fuel w l → 2000 ≤ s ∧ s < 2100 ∧ e < 10000 := by
  intro fuel
  induction fuel with
  | zero => intro w l s e h; simp [rangeScanGo] at h
  | succ m ih =>
    intro w l s e h
    cases l with
    | nil => simp [rangeScanGo] at h
    | cons c rest =>
      rw [rangeScanGo] at h
      split at h
      · rename_i s0 e0 rest2 hr
        rcases List.mem_cons.mp h with h1 | h1
        · have hat : rangeAt (c :: rest) = some (s0, e0, rest2) := by
            by_cases hw : w
            · rw [if_pos hw] at hr; exact absurd hr (by simp)
            · rwa [if_neg hw] at hr
          simp only [Prod.mk.injEq] at h1
          obtain ⟨rfl, rfl⟩ := h1
          exact rangeAt_sound _ _ _ _ hat
        · exact ih true rest2 s e h1
      · exact ih _ rest s e h

/-- Membership in a `Val` result: the code is the scalar, or an element of
the list. -/
def valContains (v : Val) (c : Str) : Prop :=
  v = Val.str c ∨ ∃ xs, v = Val.list xs ∧ c ∈ xs

theorem extractSeason_contains_range (prompt norm : Str) (s e : Nat)
    (h : (s, e) ∈ rangeFindAll prompt) :
    valContains (extractSeason prompt norm) (compactRange s e) := by
  have hmem : compactRange s e ∈
      dedupKeepFirst ((rangeFindAll prompt).map (fun p => compactRange p.1 p.2)) := by
    rw [mem_dedupKeepFirst]
    exact List.mem_map.mpr ⟨(s, e), h, rfl⟩
  have hne : dedupKeepFirst ((rangeFindAll prompt).map (fun p => compactRange p.1 p.2)) ≠ [] := by
    intro h0
    rw [h0] at hmem
    exact absurd hmem (by simp)
  unfold extractSeason
  rw [if_pos hne]
  split
  · rename_i hlen
    rcases List.length_eq_one.mp hlen with ⟨x, hx⟩
    rw [hx] at hmem
    simp only [List.mem_singleton] at hmem
    left
    rw [hx, hmem]
    rfl
  · right
    exact ⟨_, rfl, hmem⟩

theorem twoDigitCode_congr (a b : Int) (h : a % 100 = b % 100) :
    twoDigitCode a = twoDigitCode b := by
  unfold twoDigitCode
  rw [h]

theorem compactRange_eq (s e : Nat) :
    compactRange s e = twoDigitCode (s : Int) ++ twoDigitCode (e : Int) := by
  unfold compactRange
  simp only [compactSeason]
  congr 1
  apply twoDigitCode_congr
  unfold carriedEnd
  split
  · omega
  · rfl

/-- C4 counterexample: the range `"1999/00"` is a well-formed `YYYY/YY`
season range, but the extractor's regex only accepts start years `20..`, so
no range (and no season at all) is produced instead of the code `"9900"`. -/
theorem c4_pre2000_range_counterexample :
    rangeFindAll (ls "1999/00") = [] ∧
    extractSeason (ls "1999/00") (normalizeText (ls "1999/00")) = Val.null := by decide

/-- C4 (amended): for every season range matched by the scanner (the regex
accepts exactly start years 2000-2099 with a 2- or 4-digit end), the compact
code is the 2-digit start year followed by the 2-digit end year — the century
carry for 2-digit ends never changes the written end digits — and that code
appears in the extractor's output. -/
theorem c4_season_range_amended (prompt : Str) (s e : Nat)
    (h : (s, e) ∈ rangeFindAll prompt) :
    (2000 ≤ s ∧ s < 2100 ∧ e < 10000) ∧
    compactRange s e = twoDigitCode (s : Int) ++ twoDigitCode (e : Int) ∧
    ∀ norm, valContains (extractSeason prompt norm) (compactRange s e) :=
  ⟨rangeScanGo_sound _ _ _ _ _ h, compactRange_eq s e,
   fun norm => extractSeason_contains_range prompt norm s e h⟩

/-- Witness for the amended C4 at the concrete range `"2023/24"`. -/
theorem c4_season_range_amended_witness :
    compactRange 2023 24 = twoDigitCode (2023 : Int) ++ twoDigitCode (24 : Int) ∧
    valContains (extractSeason (ls "2023/24") (normalizeText (ls "2023/24")))
      (compactRange 2023 24) :=
  ⟨(c4_season_range_amended (ls "2023/24") 2023 24 (by decide)).2.1,
   (c4_season_range_amended (ls "2023/24") 2023 24 (by decide)).2.2
     (normalizeText (ls "2023/24"))⟩

/-! ## Claim C9 -/

/-- Numeric value of a 2-digit code (digit pair). -/
def pairVal (c : Str) : Nat := c.foldl (fun acc ch => 10 * acc + digitVal ch) 0

/-- A season code is one or two digit pairs. -/
def codeShape (c : Str) : Prop :=
  (c.length = 2 ∨ c.length = 4) ∧ ∀ ch ∈ c, isDigitB ch = true

/-- All codes of a season value are digit pairs. -/
def valCodesShape : Val → Prop
  | Val.null => True
  | Val.str c => codeShape c
  | Val.list cs => ∀ c ∈ cs, codeShape c

theorem digitChar_isDigit (d : Nat) (h : d < 10) : isDigitB (digitChar d) = true := by
  interval_cases d <;> decide

theorem digitVal_digitChar (d : Nat) (h : d < 10) : digitVal (digitChar d) = d := by
  interval_cases d <;> decide

theorem emod_hundred_bounds (y : Int) : 0 ≤ y % 100 ∧ y % 100 < 100 :=
  ⟨Int.emod_nonneg y (by norm_num), Int.emod_lt_of_pos y (by norm_num)⟩

theorem twoDigitCode_shape (y : Int) : codeShape (twoDigitCode y) := by
  obtain ⟨h0, h1⟩ := emod_hundred_bounds y
  refine ⟨Or.inl rfl, ?_⟩
  intro ch hch
  simp only [twoDigitCode, List.mem_cons, List.not_mem_nil, or_false] at hch
  rcases hch with rfl | rfl
  · exact digitChar_isDigit _ (by omega)
  · exact digitChar_isDigit _ (by omega)

theorem compactSeason_none_shape (y : Int) : codeShape (compactSeason y none) :=
  twoDigitCode_shape y

theorem compactRange_shape (s e : Nat) : codeShape (compactRange s e) := by
  rw [compactRange_eq]
  obtain ⟨_, hd1⟩ := twoDigitCode_shape (s : Int)
  obtain ⟨_, hd2⟩ := twoDigitCode_shape (e : Int)
  constructor
  · right
    simp [twoDigitCode]
  · intro ch hch
    rcases List.mem_append.mp hch with h | h
    · exact hd1 ch h
    · exact hd2 ch h

theorem shape_of_mem_rcodes (prompt : Str) (c : Str)
    (h : c ∈ dedupKeepFirst ((rangeFindAll prompt).map (fun p => compactRange p.1 p.2))) :
    codeShape c := by
  rw [mem_dedupKeepFirst] at h
  rcases List.mem_map.mp h with ⟨p, _, rfl⟩
  exact compactRange_shape p.1 p.2

theorem shape_of_mem_ycodes (prompt : Str) (c : Str)
    (h : c ∈ dedupKeepFirst
      ((yearFindAll prompt).map (fun y => compactSeason (Int.ofNat y) none))) :
    codeShape c := by
  rw [mem_dedupKeepFirst] at h
  rcases List.mem_map.mp h with ⟨y, _, rfl⟩
  exact compactSeason_none_shape _

theorem extractSeason_shape (prompt norm : Str) :
    valCodesShape (extractSeason prompt norm) := by
  simp only [extractSeason]
  split
  · rename_i hne
    split
    · rename_i hlen
      rcases List.length_eq_one.mp hlen with ⟨x, hx⟩
      rw [hx]
      show codeShape x
      apply shape_of_mem_rcodes prompt
      rw [hx]
      simp
    · intro c hc
      exact shape_of_mem_rcodes prompt c hc
  · split
    · rename_i hne2
      split
      · rename_i hlen
        rcases List.length_eq_one.mp hlen with ⟨x, hx⟩
        rw [hx]
        show codeShape x
        apply shape_of_mem_ycodes prompt
        rw [hx]
        simp
      · intro c hc
        exact shape_of_mem_ycodes prompt c hc
    · split
      · show codeShape (ls "2324")
        exact ⟨Or.inr rfl, by decide⟩
      · split
        · show codeShape (ls "2223")
          exact ⟨Or.inr rfl, by decide⟩
        · split
          · rename_i n hn
            split
            · rename_i hgt
              intro c hc
              rcases List.mem_map.mp hc with ⟨o, _, rfl⟩
              exact compactSeason_none_shape _
            · rename_i hgt
              have hlen : (((List.range (max 1 n)).reverse).map
                  (fun (o : Nat) => compactSeason ((2023 : Int) - (o : Int)) none)).length
                    = max 1 n := by simp
              have hone : (((List.range (max 1 n)).reverse).map
                  (fun (o : Nat) => compactSeason ((2023 : Int) - (o : Int)) none)).length
                    = 1 := by
                rw [hlen]
                have := le_max_left 1 n
                omega
              rcases List.length_eq_one.mp hone with ⟨x, hx⟩
              rw [hx]
              show codeShape x
              have hxm : x ∈ ((List.range (max 1 n)).reverse).map
                  (fun (o : Nat) => compactSeason ((2023 : Int) - (o : Int)) none) := by
                rw [hx]; simp
              rcases List.mem_map.mp hxm with ⟨o, _, rfl⟩
              exact compactSeason_none_shape _
          · trivial

theorem pairVal_twoDigitCode (y : Int) : pairVal (twoDigitCode y) = (y % 100).toNat := by
  obtain ⟨h0, h1⟩ := emod_hundred_bounds y
  simp only [twoDigitCode, pairVal, List.foldl_cons, List.foldl_nil]
  rw [digitVal_digitChar _ (by omega), digitVal_digitChar _ (by omega)]
  omega

/-- C9 counterexample: the input `"2023/25"` produces the season code
`"2325"`, whose second digit pair is 25, not the year following 23 — the
code never checks that a written range is consecutive. -/
theorem c9_nonconsecutive_counterexample :
    (parse noCaps (some "2023/25")).season = Val.str (ls "2325") ∧
    pairVal (ls "25") ≠ (pairVal (ls "23") + 1) % 100 := by decide

/-- C9 (amended): every season code in the returned descriptor is a string
of one or two digit pairs; for a 4-digit code produced from a matched range
the second pair is the *written* end year mod 100 (consecutiveness of the
range is never checked), and whenever the written end year is congruent
mod 100 to the start year plus one, the second pair is the year
immediately following the first. -/
theorem c9_season_code_shape_amended :
    (∀ (caps : Caps) (input : Option String), valCodesShape ((parse caps input).season)) ∧
    (∀ (prompt : Str) (s e : Nat), (s, e) ∈ rangeFindAll prompt →
      (compactRange s e).length = 4 ∧
      (compactRange s e).drop 2 = twoDigitCode (e : Int) ∧
      (e % 100 = (s + 1) % 100 →
        pairVal ((compactRange s e).drop 2) =
          (pairVal ((compactRange s e).take 2) + 1) % 100)) := by
  constructor
  · intro caps input
    cases input with
    | none => trivial
    | some s =>
      by_cases hs : trimStr s.toList = []
      · rw [parse_some_empty caps s hs]
        trivial
      · rw [parse_some_valid caps s hs, parseValid_season]
        exact extractSeason_shape _ _
  · intro prompt s e hmem
    have hdrop : (compactRange s e).drop 2 = twoDigitCode (e : Int) := by
      rw [compactRange_eq]
      simp [twoDigitCode]
    have htake : (compactRange s e).take 2 = twoDigitCode (s : Int) := by
      rw [compactRange_eq]
      simp [twoDigitCode]
    refine ⟨by rw [compactRange_eq]; simp [twoDigitCode], hdrop, ?_⟩
    intro hcons
    rw [hdrop, htake, pairVal_twoDigitCode, pairVal_twoDigitCode]
    omega

/-- Witness for the amended C9: shape of a concrete season value and the
written-end property of the concrete range `2023/24`. -/
theorem c9_season_code_shape_amended_witness :
    valCodesShape ((parse noCaps (some "this season")).season) ∧
    (compactRange 2023 24).drop 2 = twoDigitCode (24 : Int) :=
  ⟨c9_season_code_shape_amended.1 noCaps (some "this season"),
   (c9_season_code_shape_amended.2 (ls "2023/24") 2023 24 (by decide)).2.1⟩

/-! ## Claim C8 -/

/-- Descending-length order (a before b). -/
def lenGe (a b : Str) : Prop := b.length ≤ a.length

theorem mem_insLenDesc (x a : Str) (l : List Str) :
    a ∈ insLenDesc x l ↔ a = x ∨ a ∈ l := by
  induction l with
  | nil => simp [insLenDesc]
  | cons y ys ih =>
    rw [insLenDesc]
    split
    · rw [List.mem_cons, ih, List.mem_cons]
      tauto
    · rw [List.mem_cons, List.mem_cons]

theorem insLenDesc_sorted (x : Str) (l : List Str) (h : l.Pairwise lenGe) :
    (insLenDesc x l).Pairwise lenGe := by
  induction l with
  | nil => simp [insLenDesc, lenGe]
  | cons y ys ih =>
    rw [List.pairwise_cons] at h
    rw [insLenDesc]
    split
    · rename_i hxy
      rw [List.pairwise_cons]
      constructor
      · intro a ha
        rcases (mem_insLenDesc x a ys).mp ha with rfl | ha
        · exact hxy
        · exact h.1 a ha
      · exact ih h.2
    · rename_i hxy
      rw [List.pairwise_cons]
      constructor
      · intro a ha
        rcases List.mem_cons.mp ha with rfl | ha
        · unfold lenGe
          omega
        · have := h.1 a ha
          unfold lenGe at *
          omega
      · rw [List.pairwise_cons]
        exact ⟨h.1, h.2⟩

theorem sortLenDesc_sorted_aux (l : List Str) :
    ∀ acc : List Str, acc.Pairwise lenGe →
      (l.foldl (fun acc x => insLenDesc x acc) acc).Pairwise lenGe := by
  induction l with
  | nil => intro acc hacc; exact hacc
  | cons x xs ih => intro acc hacc; exact ih _ (insLenDesc_sorted x acc hacc)

theorem sortLenDesc_sorted (l : List Str) : (sortLenDesc l).Pairwise lenGe :=
  sortLenDesc_sorted_aux l [] (by simp)

theorem insLenDesc_perm (x : Str) (l : List Str) :
    List.Perm (insLenDesc x l) (x :: l) := by
  induction l with
  | nil => rfl
  | cons y ys ih =>
    rw [insLenDesc]
    split
    · exact (List.Perm.cons y ih).trans (List.Perm.swap x y ys)
    · rfl

theorem sortLenDesc_perm_aux (l : List Str) :
    ∀ acc : List Str,
      List.Perm (l.foldl (fun acc x => insLenDesc x acc) acc) (acc ++ l) := by
  induction l with
  | nil => intro acc; simp
  | cons x xs ih =>
    intro acc
    rw [List.foldl_cons]
    exact (ih _).trans
      (((insLenDesc_perm x acc).append_right xs).trans List.perm_middle.symm)

theorem sortLenDesc_perm (l : List Str) : List.Perm (sortLenDesc l) l := by
  simpa using sortLenDesc_perm_aux l []

theorem filter_insLenDesc (n : Nat) (x : Str) (l : List Str) (hs : l.Pairwise lenGe) :
    (insLenDesc x l).filter (fun p => p.length == n) =
      if x.length = n then l.filter (fun p => p.length == n) ++ [x]
      else l.filter (fun p => p.length == n) := by
  induction l with
  | nil =>
    by_cases hx : x.length = n
    · simp [insLenDesc, hx]
    · simp [insLenDesc, hx]
  | cons y ys ih =>
    rw [List.pairwise_cons] at hs
    rw [insLenDesc]
    split
    · rename_i hxy
      rw [List.filter_cons, ih hs.2]
      by_cases hx : x.length = n
      · rw [if_pos hx, if_pos hx, List.filter_cons]
        by_cases hy : y.length = n <;> simp [hy]
      · rw [if_neg hx, if_neg hx, List.filter_cons]
    · rename_i hxy
      by_cases hx : x.length = n
      · rw [if_pos hx]
        have hemp : (y :: ys).filter (fun p => p.length == n) = [] := by
          rw [List.filter_eq_nil_iff]
          intro a ha
          rcases List.mem_cons.mp ha with rfl | ha
          · simp
            omega
          · have := hs.1 a ha
            unfold lenGe at this
            simp
            omega
        rw [List.filter_cons_of_pos (by simpa using hx), hemp]
        rfl
      · rw [if_neg hx]
        rw [List.filter_cons_of_neg (by simpa using hx)]

theorem filter_sortLenDesc_aux (n : Nat) (l : List Str) :
    ∀ acc : List Str, acc.Pairwise lenGe →
      (l.foldl (fun acc x => insLenDesc x acc) acc).filter (fun p => p.length == n) =
        acc.filter (fun p => p.length == n) ++ l.filter (fun p => p.length == n) := by
  induction l with
  | nil => intro acc _; simp
  | cons x xs ih =>
    intro acc hacc
    rw [List.foldl_cons, ih _ (insLenDesc_sorted x acc hacc), filter_insLenDesc n x acc hacc]
    by_cases hx : x.length = n
    · rw [if_pos hx, List.filter_cons_of_pos (by simpa using hx)]
      simp
    · rw [if_neg hx, List.filter_cons_of_neg (by simpa using hx)]

theorem filter_sortLenDesc (n : Nat) (l : List Str) :
    (sortLenDesc l).filter (fun p => p.length == n) =
      l.filter (fun p => p.length == n) := by
  simpa using filter_sortLenDesc_aux n l [] (by simp)

theorem spanOverlapB_symm (a b : Nat × Nat) : spanOverlapB a b = spanOverlapB b a := by
  rcases a with ⟨a1, a2⟩
  rcases b with ⟨b1, b2⟩
  simp only [spanOverlapB, ge_iff_le]
  rw [Bool.or_comm]

theorem metricGo_free :
    ∀ (phrases : List Str) (occupied : List (Nat × Nat)) (text : Str)
      (pr : Str × (Nat × Nat)), pr ∈ metricGo phrases occupied text →
      ∀ o ∈ occupied, spanOverlapB pr.2 o = false := by
  intro phrases
  induction phrases with
  | nil => intro occupied text pr h; simp [metricGo] at h
  | cons ph rest ih =>
    intro occupied text pr h o ho
    rw [metricGo] at h
    split at h
    · rename_i sp hsp
      unfold firstFreeOcc at hsp
      rcases List.mem_cons.mp h with rfl | h2
      · have hp := List.find?_some hsp
        rw [Bool.not_eq_true'] at hp
        rw [List.any_eq_false] at hp
        exact Bool.eq_false_iff.mpr (hp o ho)
      · exact ih _ _ pr h2 o (List.mem_append_left _ ho)
    · exact ih _ _ pr h o ho

theorem metricGo_pairwise (phrases : List Str) :
    ∀ (occupied : List (Nat × Nat)) (text : Str),
      ((metricGo phrases occupied text).map Prod.snd).Pairwise
        (fun a b => spanOverlapB a b = false) := by
  induction phrases with
  | nil => intro occupied text; simp [metricGo]
  | cons ph rest ih =>
    intro occupied text
    rw [metricGo]
    split
    · rename_i sp hsp
      rw [List.map_cons, List.pairwise_cons]
      constructor
      · intro b hb
        rcases List.mem_map.mp hb with ⟨pr, hpr, rfl⟩
        rw [spanOverlapB_symm]
        exact metricGo_free rest (occupied ++ [sp]) text pr hpr sp (by simp)
      · exact ih _ _
    · exact ih _ _

theorem metricGo_fst_sublist (phrases : List Str) :
    ∀ (occupied : List (Nat × Nat)) (text : Str),
      List.Sublist ((metricGo phrases occupied text).map Prod.fst) phrases := by
  induction phrases with
  | nil => intro occupied text; simp [metricGo]
  | cons ph rest ih =>
    intro occupied text
    rw [metricGo]
    split
    · rw [List.map_cons]
      exact List.Sublist.cons₂ ph (ih _ _)
    · exact List.Sublist.cons ph (ih _ _)

theorem metricGo_occ (phrases : List Str) :
    ∀ (occupied : List (Nat × Nat)) (text : Str),
      ∀ pr ∈ metricGo phrases occupied text,
        pr.2 ∈ findIter (normPhrase pr.1) text := by
  induction phrases with
  | nil => intro occupied text pr h; simp [metricGo] at h
  | cons ph rest ih =>
    intro occupied text pr h
    rw [metricGo] at h
    split at h
    · rename_i sp hsp
      unfold firstFreeOcc at hsp
      rcases List.mem_cons.mp h with rfl | h2
      · exact List.mem_of_find?_eq_some hsp
      · exact ih _ _ pr h2
    · exact ih _ _ pr h

theorem findIterGo_sound (pat : Str) :
    ∀ (fuel : Nat) (i : Nat) (l : Str) (a b : Nat),
      (a, b) ∈ findIterGo pat fuel i l →
      b = a + pat.length ∧ ∃ k, a = i + k ∧ (l.drop k).take pat.length = pat := by
  intro fuel
  induction fuel with
  | zero => intro i l a b h; simp [findIterGo] at h
  | succ m ih =>
    intro i l a b h
    cases l with
    | nil => simp [findIterGo] at h
    | cons c rest =>
      rw [findIterGo] at h
      split at h
      · rename_i hstart
        rcases List.mem_cons.mp h with heq | h2
        · simp only [Prod.mk.injEq] at heq
          obtain ⟨rfl, rfl⟩ := heq
          exact ⟨rfl, 0, by simp, by simpa using startsWithStr_take pat (c :: rest) hstart⟩
        · obtain ⟨hb, k, hk, hsl⟩ := ih (i + pat.length) _ a b h2
          by_cases hp : pat = []
          · subst hp
            exact ⟨hb, k, by simpa using hk, by simp⟩
          · have hlen : 1 ≤ pat.length :=
              List.length_pos.mpr hp
            refine ⟨hb, pat.length + k, by omega, ?_⟩
            have hdrop : (c :: rest).drop (pat.length + k) =
                (rest.drop (pat.length - 1)).drop k := by
              rw [List.drop_drop]
              have h1 : pat.length + k = (k + (pat.length - 1)) + 1 := by omega
              rw [h1, List.drop_succ_cons]
              congr 1
              omega
            rw [hdrop]
            exact hsl
      · obtain ⟨hb, k, hk, hsl⟩ := ih (i + 1) rest a b h
        refine ⟨hb, k + 1, by omega, ?_⟩
        simpa [List.drop_succ_cons] using hsl

theorem metricKeys_nodup : metricKeys.Nodup := by decide

theorem sortedMetricPhrases_nodup : sortedMetricPhrases.Nodup :=
  (sortLenDesc_perm metricKeys).nodup_iff.mpr metricKeys_nodup

theorem extractMetrics_eq_fst (text : Str) :
    extractMetrics text = (metricGo sortedMetricPhrases [] text).map Prod.fst := by
  unfold extractMetrics
  exact dedupKeepFirst_eq_self _
    ((metricGo_fst_sublist sortedMetricPhrases [] text).nodup sortedMetricPhrases_nodup)

/-- C8: the metric extractor considers the lexicon phrases sorted
longest-first with ties in table order (the sorted list is a permutation of
the table, is sorted by descending length, and its restriction to any single
length equals the table's restriction); for any text the claimed spans are
pairwise non-overlapping, the extracted phrases form a sublist of the sorted
phrase list (discovery order, at most one occurrence per phrase), the output
is exactly that sublist, and every claimed span is a real occurrence of its
phrase in the text with the phrase's length. -/
theorem c8_metric_extraction :
    (sortedMetricPhrases.Pairwise (fun a b => b.length ≤ a.length) ∧
     List.Perm sortedMetricPhrases metricKeys ∧
     ∀ n, sortedMetricPhrases.filter (fun p => p.length == n) =
          metricKeys.filter (fun p => p.length == n)) ∧
    (∀ text : Str,
      ((metricGo sortedMetricPhrases [] text).map Prod.snd).Pairwise
        (fun a b => spanOverlapB a b = false) ∧
      List.Sublist ((metricGo sortedMetricPhrases [] text).map Prod.fst)
        sortedMetricPhrases ∧
      extractMetrics text = (metricGo sortedMetricPhrases [] text).map Prod.fst ∧
      ∀ pr ∈ metricGo sortedMetricPhrases [] text,
        pr.2 ∈ findIter (normPhrase pr.1) text ∧
        pr.2.2 = pr.2.1 + (normPhrase pr.1).length ∧
        (text.drop pr.2.1).take (normPhrase pr.1).length = normPhrase pr.1) := by
  constructor
  · exact ⟨sortLenDesc_sorted metricKeys, sortLenDesc_perm metricKeys,
      fun n => filter_sortLenDesc n metricKeys⟩
  · intro text
    refine ⟨metricGo_pairwise sortedMetricPhrases [] text,
      metricGo_fst_sublist sortedMetricPhrases [] text,
      extractMetrics_eq_fst text, ?_⟩
    intro pr hpr
    have hocc := metricGo_occ sortedMetricPhrases [] text pr hpr
    rcases pr with ⟨ph, a, b⟩
    obtain ⟨hb, k, hk, hsl⟩ := findIterGo_sound (normPhrase ph) _ 0 text a b hocc
    have hk0 : k = a := by omega
    subst hk0
    exact ⟨hocc, hb, hsl⟩

/-- Witness for C8 on the concrete text `"expected goals"`: the extractor
claims exactly the span (0, 14) for the phrase `expected goals`, which is a
genuine occurrence of that phrase. -/
theorem c8_metric_extraction_witness :
    (ls "expected goals", ((0 : Nat), (14 : Nat))) ∈
      metricGo sortedMetricPhrases [] (ls "expected goals") ∧
    ((0, 14) : Nat × Nat) ∈
      findIter (normPhrase (ls "expected goals")) (ls "expected goals") :=
  ⟨by decide,
   ((c8_metric_extraction.2 (ls "expected goals")).2.2.2
     (ls "expected goals", ((0 : Nat), (14 : Nat))) (by decide)).1⟩
